import Mathlib

/-!
# Packet pacing in `src/sleep.c`

A shallow embedding of `do_sleep`, `get_user_count` and `ioport_sleep` from
`src/sleep.c`.

* `struct timeval` / `struct timespec` are records of signed integers.
* `COUNTER` (`u_int64_t`) and `u_int32_t` values are natural numbers, every
  arithmetic result reduced modulo `2^64` resp. `2^32`.
* The function-local `static` variables of `do_sleep` (`nap`, `send`,
  `first_time`) and the cell `*skip_length` form the explicit `State`.
* Side effects (warning, trace entry, prompt, sleep primitive) are recorded as
  a list of `Event`s; the ways a call can end are the constructors of `Exit`.
* `float` arithmetic, `timesdiv_float`, `strtoul` and the `HAVE_*` build
  switches are not defined in `src/sleep.c`; they are fields of `Host`.
* `dbgx` diagnostics are not modelled, except the message of line 206, which
  marks the one place where the packet-rate nap is computed.
* `assert` is active (no `NDEBUG`); `ioport_sleep` is measured by the number of
  port writes it performs.
-/

namespace Tcpreplay

/-! ## Data model -/

/-- A `struct timeval`: seconds and microseconds. -/
structure Timeval where
  tv_sec : Int
  tv_usec : Int
deriving DecidableEq, Repr

/-- A `struct timespec`: seconds and nanoseconds. -/
structure Timespec where
  tv_sec : Int
  tv_nsec : Int
deriving DecidableEq, Repr

/-- Conversion of a C integer to `u_int64_t` (`COUNTER`). -/
def to_u64 (x : Int) : Nat := (x % (2 ^ 64 : Int)).toNat

/-- Conversion of a C integer to `u_int32_t`. -/
def to_u32 (x : Int) : Nat := (x % (2 ^ 32 : Int)).toNat

/-- The parts `do_sleep` uses that `src/sleep.c` does not define: the `float`
type `F` with its arithmetic and conversions, `timesdiv_float`, the C library
function `strtoul` (called with base 0), and the `HAVE_*` build switches. -/
structure Host (F : Type) where
  timesdiv_float : Timespec → F → Timespec
  float_of_int : Int → F
  float_div : F → F → F
  float_mul : F → F → F
  float_to_counter : F → Nat
  strtoul : List Char → Nat
  HAVE_SELECT : Bool
  HAVE_IOPERM : Bool
  HAVE_ABSOLUTE_TIME : Bool

/-- The `options.speed` record: `int mode`, `float speed`, `int pps_multi`. -/
structure Speed (F : Type) where
  mode : Int
  speed : F
  pps_multi : Int

/-- The fields of the global `options` that `do_sleep` reads. -/
structure Options (F : Type) where
  speed : Speed F
  maxsleep : Timespec

/-- Modelled from the spec: value of `SPEED_MULTIPLIER` (Multiplier mode); the
defining header is not part of `src/`. -/
def SPEED_MULTIPLIER : Int := 1

/-- Modelled from the spec: value of `SPEED_MBPSRATE` (ConstantThroughput
mode); the defining header is not part of `src/`. -/
def SPEED_MBPSRATE : Int := 2

/-- Modelled from the spec: value of `SPEED_PACKETRATE` (ConstantPacketRate
mode); the defining header is not part of `src/`. -/
def SPEED_PACKETRATE : Int := 3

/-- Modelled from the spec: value of `SPEED_TOPSPEED` (TopSpeed mode); the
defining header is not part of `src/`. -/
def SPEED_TOPSPEED : Int := 4

/-- Modelled from the spec: value of `SPEED_ONEATATIME` (Manual mode); the
defining header is not part of `src/`. -/
def SPEED_ONEATATIME : Int := 5

/-- Modelled from the spec: selector of the HighResBlockingWait backend
(`nanosleep_sleep`); the defining header is not part of `src/`. -/
def ACCURATE_NANOSLEEP : Int := 0

/-- Modelled from the spec: selector of the PollBasedWait backend
(`select_sleep`); the defining header is not part of `src/`. -/
def ACCURATE_SELECT : Int := 1

/-- Modelled from the spec: selector of the BusyWaitIOStall backend
(`ioport_sleep`); the defining header is not part of `src/`. -/
def ACCURATE_IOPORT : Int := 3

/-- Modelled from the spec: selector of the `gettimeofday_sleep` backend; the
defining header is not part of `src/`. -/
def ACCURATE_GTOD : Int := 4

/-- Modelled from the spec: selector of the MonotonicClockWait backend
(`absolute_time_sleep`); the defining header is not part of `src/`. -/
def ACCURATE_ABS_TIME : Int := 5

/-- The persistent state of `do_sleep`: its three `static` locals and the
caller-owned cell behind the `skip_length` pointer. -/
structure State where
  nap : Timespec
  send : Nat
  first_time : Bool
  skip_length : Nat
deriving DecidableEq, Repr

/-- The state at program start: `nap = { 0, 0 }`, `send = 0`,
`first_time = 1`; the caller supplies the initial `*skip_length`. -/
def State.init (skip : Nat) : State :=
  { nap := ⟨0, 0⟩, send := 0, first_time := true, skip_length := skip }

/-- What the standard input delivers to `get_user_count`. -/
inductive Stdin where
  | fcntl_failed
  | poll_failed
  | fgets_null
  | line (input : List Char)
deriving DecidableEq, Repr

/-- The per-call inputs of `do_sleep`: its parameters, the global `bytes_sent`,
the value `TIMSTAMP_TO_MICROSEC(sent_timestamp)` (field `now_us`), the value
`*start_us`, and what the operator types in Manual mode. -/
structure Args where
  time : Timeval
  last : Timeval
  len : Int
  accurate : Int
  counter : Nat
  now_us : Nat
  start_us : Nat
  bytes_sent : Nat
  stdin : Stdin

/-- Observable effects of one `do_sleep` call, in program order. -/
inductive Event where
  | warnx_back_in_time (counter : Nat)
  | trace_entry (bytes now_us tx_us next_tx_us : Nat)
  | dbgx_sending (pps : Int) (nap : Timespec)
  | prompt (counter : Nat)
  | printf_sending (counter : Nat)
  | sleep (accurate : Int) (nap : Timespec)
deriving DecidableEq, Repr

/-- How a call ends: a normal return, a failed `assert`, `errx`, or the trap
of an integer division by zero. -/
inductive Exit where
  | returned
  | assert_failed
  | errx
  | div_by_zero
deriving DecidableEq, Repr

/-- State, effects and ending of one call. -/
structure Outcome where
  st : State
  events : List Event
  exit : Exit
deriving DecidableEq, Repr

/-! ## Time helpers used by `do_sleep` -/

/-- The `timerisset` of `<sys/time.h>`. -/
def timerisset (tvp : Timeval) : Bool :=
  tvp.tv_sec != 0 || tvp.tv_usec != 0

/-- The `timercmp(tvp, uvp, <)` of `<sys/time.h>`. -/
def timercmp_lt (tvp uvp : Timeval) : Bool :=
  if tvp.tv_sec = uvp.tv_sec then decide (tvp.tv_usec < uvp.tv_usec)
  else decide (tvp.tv_sec < uvp.tv_sec)

/-- The `timersub` of `<sys/time.h>`. -/
def timersub (tvp uvp : Timeval) : Timeval :=
  let sec := tvp.tv_sec - uvp.tv_sec
  let usec := tvp.tv_usec - uvp.tv_usec
  if usec < 0 then ⟨sec - 1, usec + 1000000⟩ else ⟨sec, usec⟩

/-- The `TIMEVAL_TO_TIMESPEC` of `<sys/time.h>`. -/
def TIMEVAL_TO_TIMESPEC (tv : Timeval) : Timespec :=
  ⟨tv.tv_sec, tv.tv_usec * 1000⟩

/-- Modelled from the spec: `timesclear`, whose header is not part of `src/`;
it yields the zero duration, the canonical do-not-sleep value. -/
def timesclear : Timespec := ⟨0, 0⟩

/-- Modelled from the spec: `timesisset`, whose header is not part of `src/`;
a duration is set when it is not the zero value. -/
def timesisset (tvs : Timespec) : Bool :=
  tvs.tv_sec != 0 || tvs.tv_nsec != 0

/-- Modelled from the spec: `timescmp(tsp, usp, >)`, whose header is not part
of `src/`; seconds are compared first, then the sub-second remainder. -/
def timescmp_gt (tsp usp : Timespec) : Bool :=
  if tsp.tv_sec = usp.tv_sec then decide (tsp.tv_nsec > usp.tv_nsec)
  else decide (tsp.tv_sec > usp.tv_sec)

/-- Modelled from the spec: `NANOSEC_TO_TIMESPEC`, whose header is not part of
`src/`; a count of nanoseconds becomes seconds plus sub-second remainder. -/
def NANOSEC_TO_TIMESPEC (x : Nat) : Timespec :=
  ⟨((x / 1000000000 : Nat) : Int), ((x % 1000000000 : Nat) : Int)⟩

/-! ## `get_user_count` (lines 314-356) -/

/-- The function `get_user_count`: `none` is the `errx` exit. -/
def get_user_count {F : Type} (h : Host F) (inp : Stdin) : Option Nat :=
  match inp with
  | .fcntl_failed => none
  | .poll_failed => none
  | .fgets_null => none
  | .line input =>
    let send : Nat := if input.length > 1 then h.strtoul input % 2 ^ 32 else 0
    some (if send = 0 then 1 else send)

/-! ## `do_sleep` (lines 103-309) -/

/-- Lines 241-246: the value of `nap_this_time` handed to the sleep primitive. -/
def clamp_nap (nap maxsleep : Timespec) : Timespec :=
  if timesisset maxsleep && timescmp_gt nap maxsleep then maxsleep else nap

/-- The `case` labels of `switch (accurate)` (lines 254-301) that the build
contains. -/
def backend_supported {F : Type} (h : Host F) (accurate : Int) : Bool :=
  (h.HAVE_SELECT && accurate == ACCURATE_SELECT)
    || (h.HAVE_IOPERM && accurate == ACCURATE_IOPORT)
    || (h.HAVE_ABSOLUTE_TIME && accurate == ACCURATE_ABS_TIME)
    || accurate == ACCURATE_GTOD
    || accurate == ACCURATE_NANOSLEEP

/-- Lines 234-309: copy `nap`, zero check, clamp, and the backend `switch`.
`ev` holds the effects of the strategy dispatch that ran before. -/
def sleep_phase {F : Type} (h : Host F) (o : Options F) (a : Args) (s : State)
    (ev : List Event) : Outcome :=
  if !timesisset s.nap then ⟨s, ev, .returned⟩
  else if backend_supported h a.accurate then
    ⟨s, ev ++ [.sleep a.accurate (clamp_nap s.nap o.maxsleep)], .returned⟩
  else ⟨s, ev, .errx⟩

/-- Line 204: the value stored in `ppnsec`. -/
def ppnsec {F : Type} (h : Host F) (o : Options F) : Nat :=
  h.float_to_counter
    (h.float_mul (h.float_div (h.float_of_int 1000000000) o.speed.speed)
      (h.float_of_int (if o.speed.pps_multi > 0 then o.speed.pps_multi else 1)))
    % 2 ^ 64

/-- Lines 146-232: the `switch` over `options.speed.mode`, entered with the
state `s` left by the accelerator code. -/
def strategy {F : Type} (h : Host F) (o : Options F) (a : Args) (s : State) :
    Outcome :=
  if o.speed.mode = SPEED_MULTIPLIER then
    if timerisset a.last then
      if timercmp_lt a.time a.last then
        sleep_phase h o a { s with nap := timesclear }
          [.warnx_back_in_time a.counter]
      else
        let nap_for := timersub a.time a.last
        let nap := h.timesdiv_float (TIMEVAL_TO_TIMESPEC nap_for) o.speed.speed
        sleep_phase h o a { s with nap := nap } []
    else
      sleep_phase h o a { s with nap := timesclear } []
  else if o.speed.mode = SPEED_MBPSRATE then
    if a.now_us ≠ 0 then
      let bps : Nat := h.float_to_counter o.speed.speed % 2 ^ 64
      let bits_sent : Nat := ((a.bytes_sent + to_u64 a.len) % 2 ^ 64 * 8) % 2 ^ 64
      if bps = 0 then ⟨s, [], .div_by_zero⟩
      else
        let next_tx_us : Nat := (bits_sent * 1000000 % 2 ^ 64) / bps
        let tx_us : Nat := to_u64 ((a.now_us : Int) - (a.start_us : Int))
        let tr : Event :=
          .trace_entry ((a.bytes_sent + to_u64 a.len) % 2 ^ 64) a.now_us tx_us next_tx_us
        if next_tx_us > tx_us then
          let nap := NANOSEC_TO_TIMESPEC ((next_tx_us - tx_us) * 1000 % 2 ^ 64)
          sleep_phase h o a { s with nap := nap } [tr]
        else if tx_us > next_tx_us then
          let skip : Nat := ((tx_us - next_tx_us) * bps % 2 ^ 64) / 8000000
          sleep_phase h o a { s with skip_length := skip } [tr]
        else sleep_phase h o a s [tr]
    else sleep_phase h o a s []
  else if o.speed.mode = SPEED_PACKETRATE then
    if !timesisset s.nap then
      let nap := NANOSEC_TO_TIMESPEC (ppnsec h o)
      sleep_phase h o a { s with nap := nap }
        [.dbgx_sending (if o.speed.pps_multi > 0 then o.speed.pps_multi else 1) nap]
    else sleep_phase h o a s []
  else if o.speed.mode = SPEED_ONEATATIME then
    if s.send = 0 then
      match get_user_count h a.stdin with
      | none => ⟨s, [.prompt a.counter], .errx⟩
      | some c =>
        ⟨{ s with send := to_u32 ((c : Int) - 1) },
          [.prompt a.counter, .printf_sending a.counter], .returned⟩
    else
      ⟨{ s with send := to_u32 ((s.send : Int) - 1) },
        [.printf_sending a.counter], .returned⟩
  else ⟨s, [], .errx⟩

/-- The function `do_sleep`: accelerator gate (lines 119-123), `pps_multi`
accelerator (lines 125-135), the assertion of line 141, then the strategy
`switch` and the sleep. -/
def do_sleep {F : Type} (h : Host F) (o : Options F) (a : Args) (s : State) :
    Outcome :=
  if s.send > 0 then ⟨{ s with send := s.send - 1 }, [], .returned⟩
  else if o.speed.mode = SPEED_PACKETRATE ∧ o.speed.pps_multi ≠ 0 then
    let s1 : State := { s with send := to_u32 (o.speed.pps_multi - 1) }
    if s.first_time then ⟨{ s1 with first_time := false }, [], .returned⟩
    else if o.speed.mode = SPEED_TOPSPEED then ⟨s1, [], .assert_failed⟩
    else strategy h o a s1
  else if o.speed.mode = SPEED_TOPSPEED then ⟨s, [], .assert_failed⟩
  else strategy h o a s

/-- A pacing session: `do_sleep` is called once per packet, each call starting
from the state the previous one left; the effects are concatenated, and a call
that does not return ends the session. -/
def run_session {F : Type} (h : Host F) (o : Options F) :
    List Args → State → Outcome
  | [], s => ⟨s, [], .returned⟩
  | a :: rest, s =>
    let r := do_sleep h o a s
    if r.exit = .returned then
      let r2 := run_session h o rest r.st
      ⟨r2.st, r.events ++ r2.events, r2.exit⟩
    else r

/-! ## An exact-arithmetic host for concrete evaluations -/

/-- A fraction `num / den` of integers, standing for a finite `float` value
without rounding. -/
structure Frac where
  num : Int
  den : Int
deriving DecidableEq, Repr

/-- Modelled from the spec: the helper `timesdiv_float`, which lives outside
`src/`: the nap is the duration divided by the speed value; here the quotient
is taken exactly and truncated to whole nanoseconds. -/
def exact_timesdiv (tvs : Timespec) (m : Frac) : Timespec :=
  NANOSEC_TO_TIMESPEC
    (((tvs.tv_sec * 1000000000 + tvs.tv_nsec) * m.den) / m.num).toNat

/-- Modelled from the spec: a host whose `float` arithmetic is exact: fractions
are multiplied and divided without rounding, the conversion to `COUNTER`
truncates, `strtoul` reads a leading run of decimal digits, and every sleep
backend is compiled in. Used to evaluate `do_sleep` on inputs whose `float`
operations are exact. -/
def exact_host : Host Frac where
  timesdiv_float := exact_timesdiv
  float_of_int := fun i => ⟨i, 1⟩
  float_div := fun x y => ⟨x.num * y.den, x.den * y.num⟩
  float_mul := fun x y => ⟨x.num * y.num, x.den * y.den⟩
  float_to_counter := fun x => (x.num / x.den).toNat
  strtoul := fun cs =>
    (cs.takeWhile Char.isDigit).foldl (fun n c => 10 * n + (c.toNat - 48)) 0
  HAVE_SELECT := true
  HAVE_IOPERM := true
  HAVE_ABSOLUTE_TIME := true

/-! ## Measures used to state the claims -/

/-- A timeval as a count of microseconds. -/
def Timeval.usecs (tv : Timeval) : Int := tv.tv_sec * 1000000 + tv.tv_usec

/-- A timespec as a count of nanoseconds. -/
def Timespec.nsecs (ts : Timespec) : Int := ts.tv_sec * 1000000000 + ts.tv_nsec

/-- A timeval in canonical form: the microseconds lie in `[0, 1000000)`. -/
def Timeval.canonical (tv : Timeval) : Prop :=
  0 ≤ tv.tv_usec ∧ tv.tv_usec < 1000000

/-- A timespec in canonical form: the nanoseconds lie in `[0, 1000000000)`. -/
def Timespec.canonical (ts : Timespec) : Prop :=
  0 ≤ ts.tv_nsec ∧ ts.tv_nsec < 1000000000

instance (tv : Timeval) : Decidable tv.canonical := by
  unfold Timeval.canonical; exact inferInstance

instance (ts : Timespec) : Decidable ts.canonical := by
  unfold Timespec.canonical; exact inferInstance

/-! ## Concrete inputs -/

/-- Multiplier mode at speed 2, no ceiling. -/
def mult_opts : Options Frac :=
  { speed := { mode := SPEED_MULTIPLIER, speed := ⟨2, 1⟩, pps_multi := 0 },
    maxsleep := ⟨0, 0⟩ }

/-- A packet captured 0.75 s after its predecessor. -/
def mult_args : Args :=
  { time := ⟨10, 500000⟩, last := ⟨9, 750000⟩, len := 60,
    accurate := ACCURATE_NANOSLEEP, counter := 2, now_us := 0, start_us := 0,
    bytes_sent := 60, stdin := .fgets_null }

/-- A packet captured 0.25 s before its predecessor. -/
def back_args : Args :=
  { time := ⟨9, 500000⟩, last := ⟨9, 750000⟩, len := 60,
    accurate := 77, counter := 7, now_us := 0, start_us := 0,
    bytes_sent := 60, stdin := .fgets_null }

/-- A state in which an earlier call left a nap of 3.5 s behind. -/
def stale_state : State :=
  { nap := ⟨3, 500000000⟩, send := 0, first_time := false, skip_length := 0 }

/-- ConstantThroughput mode at 8,000,000 bit/s, no ceiling. -/
def mbps_opts : Options Frac :=
  { speed := { mode := SPEED_MBPSRATE, speed := ⟨8000000, 1⟩, pps_multi := 0 },
    maxsleep := ⟨0, 0⟩ }

/-- The fourth 1000-byte packet of a session, sent exactly on schedule: 3000
bytes are out and 3000 microseconds have elapsed. -/
def on_schedule_args : Args :=
  { time := ⟨0, 0⟩, last := ⟨0, 0⟩, len := 1000,
    accurate := ACCURATE_NANOSLEEP, counter := 4, now_us := 5003000,
    start_us := 5000000, bytes_sent := 3000, stdin := .fgets_null }

/-- A 1000-byte first packet handed over 1,001,000 microseconds after the start:
one second later than its scheduled send time of 1000 microseconds. -/
def behind_args : Args :=
  { time := ⟨0, 0⟩, last := ⟨0, 0⟩, len := 1000,
    accurate := ACCURATE_NANOSLEEP, counter := 1, now_us := 6001000,
    start_us := 5000000, bytes_sent := 0, stdin := .fgets_null }

/-- The fifth 1000-byte packet, handed over 2 s after the start although its
scheduled send time is 5000 microseconds. -/
def late_args : Args :=
  { time := ⟨0, 0⟩, last := ⟨0, 0⟩, len := 1000,
    accurate := ACCURATE_NANOSLEEP, counter := 5, now_us := 7000000,
    start_us := 5000000, bytes_sent := 4000, stdin := .fgets_null }

/-- ConstantPacketRate mode at 1000 packets/s in bursts of 5, no ceiling. -/
def pps_opts : Options Frac :=
  { speed := { mode := SPEED_PACKETRATE, speed := ⟨1000, 1⟩, pps_multi := 5 },
    maxsleep := ⟨0, 0⟩ }

/-- ConstantPacketRate mode at 2,000,000,000 packets/s without bursts: half a
nanosecond per packet. -/
def fast_pps_opts : Options Frac :=
  { speed := { mode := SPEED_PACKETRATE, speed := ⟨2000000000, 1⟩, pps_multi := 0 },
    maxsleep := ⟨0, 0⟩ }

/-- A session state after the first call: no pending burst, no nap yet. -/
def second_call_state : State :=
  { nap := ⟨0, 0⟩, send := 0, first_time := false, skip_length := 0 }

/-- How often the packet-rate nap was computed (line 204), read off the
effects. -/
def nap_computations (ev : List Event) : Nat :=
  ev.countP (fun e => match e with
    | .dbgx_sending _ _ => true
    | _ => false)

/-- Twelve packets with differing timestamps, lengths and progress counters. -/
def twelve_packets : List Args :=
  [mult_args, on_schedule_args, back_args, late_args, behind_args, mult_args,
   back_args, on_schedule_args, late_args, mult_args, behind_args, back_args].map
    (fun a => { a with accurate := ACCURATE_GTOD })

/-- Every sleep of an outcome is a sleep of the clamped persistent nap, which
is set, with the backend the call selected. -/
def sleeps_clamped {F : Type} (o : Options F) (a : Args) (r : Outcome) : Prop :=
  ∀ acc d, Event.sleep acc d ∈ r.events →
    timesisset r.st.nap = true ∧ acc = a.accurate
      ∧ d = clamp_nap r.st.nap o.maxsleep

/-- Multiplier mode at speed 1 with a ceiling of 2 s. -/
def capped_opts : Options Frac :=
  { speed := { mode := SPEED_MULTIPLIER, speed := ⟨1, 1⟩, pps_multi := 0 },
    maxsleep := ⟨2, 0⟩ }

/-- A packet captured 7.25 s after its predecessor. -/
def gap_args : Args :=
  { time := ⟨17, 0⟩, last := ⟨9, 750000⟩, len := 60,
    accurate := ACCURATE_SELECT, counter := 3, now_us := 0, start_us := 0,
    bytes_sent := 120, stdin := .fgets_null }

/-- A state with three packets of a burst still to pass. -/
def burst_state : State :=
  { nap := ⟨0, 5000000⟩, send := 3, first_time := false, skip_length := 9 }

/-- TopSpeed mode, which `do_sleep` must not be called with. -/
def topspeed_opts : Options Frac :=
  { speed := { mode := SPEED_TOPSPEED, speed := ⟨1, 1⟩, pps_multi := 0 },
    maxsleep := ⟨0, 0⟩ }

/-- The state an arming call leaves at `pps_multi = 5`. -/
def armed_state : State :=
  { nap := ⟨0, 0⟩, send := 4, first_time := false, skip_length := 0 }

/-- Four packets that fall into a burst, each with an unknown timer selector. -/
def four_packets : List Args := [back_args, mult_args, back_args, late_args]

/-- ConstantPacketRate mode at 1000 packets/s without bursts, no ceiling. -/
def plain_pps_opts : Options Frac :=
  { speed := { mode := SPEED_PACKETRATE, speed := ⟨1000, 1⟩, pps_multi := 0 },
    maxsleep := ⟨0, 0⟩ }

/-- The operator's line `0` followed by a newline. -/
def line_0 : List Char := ['0', Char.ofNat 10]

/-- Manual mode, no ceiling. -/
def manual_opts : Options Frac :=
  { speed := { mode := SPEED_ONEATATIME, speed := ⟨1, 1⟩, pps_multi := 0 },
    maxsleep := ⟨0, 0⟩ }

/-- A packet for which the operator answers the prompt with `3`. -/
def answer_3_args : Args :=
  { time := ⟨10, 500000⟩, last := ⟨9, 750000⟩, len := 60,
    accurate := ACCURATE_NANOSLEEP, counter := 11, now_us := 0, start_us := 0,
    bytes_sent := 60, stdin := .line ['3', Char.ofNat 10] }

/-- A later packet for which the operator answers the prompt with `0`. -/
def answer_0_args : Args :=
  { time := ⟨12, 0⟩, last := ⟨11, 0⟩, len := 60,
    accurate := ACCURATE_NANOSLEEP, counter := 14, now_us := 0, start_us := 0,
    bytes_sent := 240, stdin := .line line_0 }

/-- A mode value that names no strategy. -/
def unknown_mode_opts : Options Frac :=
  { speed := { mode := 9, speed := ⟨1, 1⟩, pps_multi := 3 },
    maxsleep := ⟨0, 0⟩ }

/-- The sleeps among the effects of a call, in order. -/
def sleeps (ev : List Event) : List Event :=
  ev.filter (fun e => match e with
    | .sleep _ _ => true
    | _ => false)

/-- The 0.75 s packet of `mult_args` with a timer selector that names no
backend. -/
def bad_timer_args : Args := { mult_args with accurate := 77 }

/-- Lines 180-182: the value `do_sleep` stores in `next_tx_us`, from
`bytes_sent`, `len` and `bps`, every step reduced to 64 bits. -/
def next_tx_us (bytes_sent : Nat) (len : Int) (bps : Nat) : Nat :=
  (((bytes_sent + to_u64 len) % 2 ^ 64 * 8) % 2 ^ 64 * 1000000 % 2 ^ 64) / bps

/-- Line 183: the value `do_sleep` stores in `tx_us`, the unsigned difference
`now_us - *start_us`. -/
def tx_us (now_us start_us : Nat) : Nat :=
  to_u64 ((now_us : Int) - (start_us : Int))

/-- A 1000-byte packet after 2,305,843,009,213 bytes were sent: the cumulative
count times 8,000,000 no longer fits 64 bits. -/
def huge_args : Args :=
  { time := ⟨0, 0⟩, last := ⟨0, 0⟩, len := 1000,
    accurate := ACCURATE_NANOSLEEP, counter := 5, now_us := 7000000,
    start_us := 5000000, bytes_sent := 2305843009213, stdin := .fgets_null }

/-! ## `ioport_sleep` (lines 64-96) -/

/-- The `TIMESPEC_TO_TIMEVAL` of `<sys/time.h>`; the division of C truncates
toward zero. -/
def TIMESPEC_TO_TIMEVAL (ts : Timespec) : Timeval :=
  ⟨ts.tv_sec, Int.tdiv ts.tv_nsec 1000⟩

/-- Modelled from the spec: `SEC_TO_MICROSEC`, whose header is not part of
`src/`; seconds become microseconds by the factor 1,000,000. -/
def SEC_TO_MICROSEC (x : Int) : Int := x * 1000000

/-- The loop `while (usec > 0) { usec --; outb(...); }` of lines 80-83 and
89-92: started with the counter `usec` after `writes` port writes, it yields
the number of port writes when it ends. -/
def spin : Nat → Nat → Nat
  | 0, writes => writes
  | usec + 1, writes => spin usec (writes + 1)

/-- The `for` loop of lines 78-84 with `remaining` iterations to go: each
iteration sets `usec = SEC_TO_MICROSEC(nap_for.tv_sec)` as a `u_int32_t` and
spins it down. -/
def seconds_loop (tv_sec : Int) : Nat → Nat → Nat
  | 0, writes => writes
  | remaining + 1, writes =>
    seconds_loop tv_sec remaining (spin (to_u32 (SEC_TO_MICROSEC tv_sec)) writes)

/-- The function `ioport_sleep`: the number of port writes (`outb`) it
performs; `none` is the `err` exit of a build without `HAVE_IOPERM`. The `for`
loop runs `nap_for.tv_sec` times (not at all for a negative value). -/
def ioport_sleep {F : Type} (h : Host F) (nap : Timespec) : Option Nat :=
  if h.HAVE_IOPERM then
    let nap_for := TIMESPEC_TO_TIMEVAL nap
    let writes := seconds_loop nap_for.tv_sec nap_for.tv_sec.toNat 0
    let usec := to_u32 (Int.tdiv nap.tv_nsec 1000)
    let usec := to_u32 ((usec : Int) - 1)
    some (spin usec writes)
  else none

/-- The whole microseconds of a nap: `tv_sec * 1000000 + tv_nsec / 1000`. -/
def Timespec.whole_usecs (ts : Timespec) : Int :=
  ts.tv_sec * 1000000 + ts.tv_nsec / 1000

/-! ## Helper lemmas -/

theorem timersub_usecs (t l : Timeval) :
    (timersub t l).usecs = t.usecs - l.usecs := by
  unfold timersub Timeval.usecs
  by_cases hneg : t.tv_usec - l.tv_usec < 0
  · simp only [hneg, if_true]; ring
  · simp only [hneg, if_false]; ring

theorem timersub_canonical (t l : Timeval) (ht : t.canonical) (hl : l.canonical) :
    (timersub t l).canonical := by
  unfold Timeval.canonical at *
  unfold timersub
  by_cases hneg : t.tv_usec - l.tv_usec < 0
  · simp only [hneg, if_true]; omega
  · simp only [hneg, if_false]; omega

theorem nanosec_to_timespec_nsecs (x : Nat) :
    (NANOSEC_TO_TIMESPEC x).nsecs = (x : Int) := by
  unfold NANOSEC_TO_TIMESPEC Timespec.nsecs
  push_cast
  omega

theorem nanosec_to_timespec_canonical (x : Nat) :
    (NANOSEC_TO_TIMESPEC x).canonical := by
  unfold NANOSEC_TO_TIMESPEC Timespec.canonical
  push_cast
  omega

/-! ## Multiplier mode -/

/-- C1: in Multiplier mode, for a call that passes the accelerator gate with a
set previous timestamp and a current timestamp that is not before it, the
persistent nap after the call is `timesdiv_float` applied to the timespec of
`timersub(time, last)` and the speed value; for canonical timestamps that
timespec is canonical and holds exactly the elapsed capture time. -/
theorem multiplier_nap_is_delta_div_speed {F : Type} (h : Host F) (o : Options F)
    (a : Args) (s : State)
    (hsend : s.send = 0) (hmode : o.speed.mode = SPEED_MULTIPLIER)
    (hlast : timerisset a.last = true) (hge : timercmp_lt a.time a.last = false) :
    (do_sleep h o a s).st.nap
        = h.timesdiv_float (TIMEVAL_TO_TIMESPEC (timersub a.time a.last)) o.speed.speed
      ∧ (a.time.canonical → a.last.canonical →
          (TIMEVAL_TO_TIMESPEC (timersub a.time a.last)).nsecs
              = (a.time.usecs - a.last.usecs) * 1000
            ∧ (TIMEVAL_TO_TIMESPEC (timersub a.time a.last)).canonical
            ∧ 0 ≤ a.time.usecs - a.last.usecs) := by
  refine ⟨?_, ?_⟩
  · simp [do_sleep, strategy, sleep_phase, hsend, hmode, hlast, hge,
      SPEED_MULTIPLIER, SPEED_PACKETRATE, SPEED_TOPSPEED]
    split_ifs <;> rfl
  · intro ht hl
    have hsub := timersub_usecs a.time a.last
    have hcan := timersub_canonical a.time a.last ht hl
    refine ⟨?_, ?_, ?_⟩
    · unfold TIMEVAL_TO_TIMESPEC Timespec.nsecs
      unfold Timeval.usecs at hsub
      unfold Timeval.usecs
      simp only
      linarith
    · unfold TIMEVAL_TO_TIMESPEC Timespec.canonical
      unfold Timeval.canonical at hcan
      simp only
      omega
    · unfold timercmp_lt at hge
      unfold Timeval.canonical at ht hl
      unfold Timeval.usecs
      by_cases hs : a.time.tv_sec = a.last.tv_sec
      · simp [hs] at hge; rw [hs]; omega
      · simp [hs] at hge; omega

/-- Witness for C1: at speed 2, a packet 0.75 s after its predecessor leaves a
nap of 0.375 s. -/
theorem multiplier_nap_is_delta_div_speed_witness :
    (do_sleep exact_host mult_opts mult_args (State.init 0)).st.nap
        = exact_host.timesdiv_float
            (TIMEVAL_TO_TIMESPEC (timersub mult_args.time mult_args.last))
            mult_opts.speed.speed
      ∧ exact_host.timesdiv_float
            (TIMEVAL_TO_TIMESPEC (timersub mult_args.time mult_args.last))
            mult_opts.speed.speed = ⟨0, 375000000⟩
      ∧ (TIMEVAL_TO_TIMESPEC (timersub mult_args.time mult_args.last)).nsecs
          = (mult_args.time.usecs - mult_args.last.usecs) * 1000 :=
  have w := multiplier_nap_is_delta_div_speed exact_host mult_opts mult_args
    (State.init 0) (by decide) (by decide) (by decide) (by decide)
  ⟨w.1, by decide, (w.2 (by decide) (by decide)).1⟩

/-- C2: in Multiplier mode, a call that passes the accelerator gate with a set
previous timestamp and a current timestamp before it emits the back-in-time
warning and nothing else, sets the persistent nap to `{0, 0}`, invokes no sleep
primitive and returns normally, whatever the earlier nap, `maxsleep` and
`accurate` are. -/
theorem multiplier_backward_jump {F : Type} (h : Host F) (o : Options F)
    (a : Args) (s : State)
    (hsend : s.send = 0) (hmode : o.speed.mode = SPEED_MULTIPLIER)
    (hlast : timerisset a.last = true) (hlt : timercmp_lt a.time a.last = true) :
    do_sleep h o a s
      = ⟨{ s with nap := ⟨0, 0⟩ }, [.warnx_back_in_time a.counter], .returned⟩ := by
  simp [do_sleep, strategy, sleep_phase, hsend, hmode, hlast, hlt, timesclear,
    timesisset, SPEED_MULTIPLIER, SPEED_PACKETRATE, SPEED_TOPSPEED]

/-- Witness for C2: with a stale nap of 3.5 s and an unknown timer selector, a
packet 0.25 s before its predecessor only warns and clears the nap. -/
theorem multiplier_backward_jump_witness :
    do_sleep exact_host mult_opts back_args stale_state
      = ⟨{ stale_state with nap := ⟨0, 0⟩ }, [.warnx_back_in_time 7], .returned⟩ :=
  multiplier_backward_jump exact_host mult_opts back_args stale_state
    (by decide) (by decide) (by decide) (by decide)

/-! ## ConstantThroughput mode -/

/-- Conversion of a value that fits: `to_u64` of a natural number below `2^64`
is that number. -/
theorem to_u64_of_lt (n : Nat) (hn : n < 2 ^ 64) : to_u64 (n : Int) = n := by
  unfold to_u64
  have h1 : ((n : Int) % (2 ^ 64 : Int)) = (n : Int) := by
    apply Int.emod_eq_of_lt <;> omega
  rw [h1]; simp

/-- The unsigned difference `now_us - *start_us` when it does not wrap. -/
theorem to_u64_sub_of_le (x y : Nat) (hxy : y ≤ x) (hx : x < 2 ^ 64) :
    to_u64 ((x : Int) - (y : Int)) = x - y := by
  have h1 : ((x : Int) - (y : Int)) = ((x - y : Nat) : Int) := by omega
  rw [h1]
  exact to_u64_of_lt _ (by omega)

/-- The ConstantThroughput branch of `do_sleep` when the gate is passed,
`now_us` is set, `bps >= 1` and nothing wraps: the three-way comparison of the
scheduled send time with the elapsed time. -/
theorem mbps_do_sleep {F : Type} (h : Host F) (o : Options F) (a : Args)
    (s : State) (len bps : Nat)
    (hsend : s.send = 0) (hmode : o.speed.mode = SPEED_MBPSRATE)
    (hnow : a.now_us ≠ 0) (hnow64 : a.now_us < 2 ^ 64)
    (hstart : a.start_us ≤ a.now_us)
    (hbps : h.float_to_counter o.speed.speed = bps) (hbps1 : 1 ≤ bps)
    (hbps64 : bps < 2 ^ 64)
    (hlen : a.len = (len : Int))
    (hfit : (a.bytes_sent + len) * 8 * 1000000 < 2 ^ 64) :
    do_sleep h o a s =
      (let next_tx_us := (a.bytes_sent + len) * 8 * 1000000 / bps
       let tx_us := a.now_us - a.start_us
       let tr : Event := .trace_entry (a.bytes_sent + len) a.now_us tx_us next_tx_us
       if next_tx_us > tx_us then
         sleep_phase h o a
           { s with nap := NANOSEC_TO_TIMESPEC ((next_tx_us - tx_us) * 1000 % 2 ^ 64) } [tr]
       else if tx_us > next_tx_us then
         sleep_phase h o a
           { s with skip_length := ((tx_us - next_tx_us) * bps % 2 ^ 64) / 8000000 } [tr]
       else sleep_phase h o a s [tr]) := by
  have hl : to_u64 a.len = len := by
    rw [hlen]; exact to_u64_of_lt _ (by omega)
  have htx : to_u64 ((a.now_us : Int) - (a.start_us : Int)) = a.now_us - a.start_us :=
    to_u64_sub_of_le _ _ hstart hnow64
  have hb : h.float_to_counter o.speed.speed % 2 ^ 64 = bps := by
    rw [hbps]; exact Nat.mod_eq_of_lt hbps64
  have hb0 : bps ≠ 0 := by omega
  have h1 : (a.bytes_sent + len) % 2 ^ 64 = a.bytes_sent + len :=
    Nat.mod_eq_of_lt (by omega)
  have h2 : (a.bytes_sent + len) * 8 % 2 ^ 64 = (a.bytes_sent + len) * 8 :=
    Nat.mod_eq_of_lt (by omega)
  have h3 : (a.bytes_sent + len) * 8 * 1000000 % 2 ^ 64
      = (a.bytes_sent + len) * 8 * 1000000 := Nat.mod_eq_of_lt hfit
  have hm1 : ¬ (SPEED_MBPSRATE = SPEED_PACKETRATE) := by decide
  have hm2 : ¬ (SPEED_MBPSRATE = SPEED_TOPSPEED) := by decide
  have hm3 : ¬ (SPEED_MBPSRATE = SPEED_MULTIPLIER) := by decide
  unfold do_sleep strategy
  simp only [hsend, hmode, hm1, hm2, hm3, hnow, hl, htx, hb, hb0, h1, h2, h3,
    lt_irrefl, false_and, if_false, if_true, ne_eq, not_false_eq_true,
    gt_iff_lt]

/-- The sleep phase leaves the persistent state as the strategy dispatch
left it. -/
theorem sleep_phase_st {F : Type} (h : Host F) (o : Options F) (a : Args)
    (s : State) (ev : List Event) : (sleep_phase h o a s ev).st = s := by
  unfold sleep_phase
  split_ifs <;> rfl

/-- C3: in ConstantThroughput mode, for a call that passes the gate with
`now_us` set, `bps >= 1`, `now_us >= *start_us` and no 64-bit overflow, if the
scheduled send time `next_tx_us = (bytes_sent + len) * 8 * 1000000 / bps` lies
after the elapsed time `now_us - *start_us`, the persistent nap becomes exactly
the difference in microseconds, as seconds plus nanoseconds; at 8,000,000 bit/s
with 1000-byte packets sent on schedule the nap is 1 ms. -/
theorem mbps_ahead_nap {F : Type} (h : Host F) (o : Options F) (a : Args)
    (s : State) (len bps : Nat)
    (hsend : s.send = 0) (hmode : o.speed.mode = SPEED_MBPSRATE)
    (hnow : a.now_us ≠ 0) (hnow64 : a.now_us < 2 ^ 64)
    (hstart : a.start_us ≤ a.now_us)
    (hbps : h.float_to_counter o.speed.speed = bps) (hbps1 : 1 ≤ bps)
    (hbps64 : bps < 2 ^ 64)
    (hlen : a.len = (len : Int))
    (hfit : (a.bytes_sent + len) * 8 * 1000000 < 2 ^ 64)
    (hahead : (a.bytes_sent + len) * 8 * 1000000 / bps > a.now_us - a.start_us)
    (hfit2 : ((a.bytes_sent + len) * 8 * 1000000 / bps
                - (a.now_us - a.start_us)) * 1000 < 2 ^ 64) :
    (do_sleep h o a s).st.nap
        = NANOSEC_TO_TIMESPEC
            (((a.bytes_sent + len) * 8 * 1000000 / bps
                - (a.now_us - a.start_us)) * 1000)
      ∧ (do_sleep h o a s).st.nap.nsecs
          = ((((a.bytes_sent + len) * 8 * 1000000 / bps
                - (a.now_us - a.start_us)) * 1000 : Nat) : Int)
      ∧ (do_sleep h o a s).st.nap.canonical
      ∧ (bps = 8000000 → len = 1000 → a.bytes_sent = a.now_us - a.start_us →
          (do_sleep h o a s).st.nap = ⟨0, 1000000⟩) := by
  have hnap : (do_sleep h o a s).st.nap
        = NANOSEC_TO_TIMESPEC
            (((a.bytes_sent + len) * 8 * 1000000 / bps
                - (a.now_us - a.start_us)) * 1000) := by
    rw [mbps_do_sleep h o a s len bps hsend hmode hnow hnow64 hstart hbps hbps1
      hbps64 hlen hfit]
    simp only [hahead, if_true, sleep_phase_st, Nat.mod_eq_of_lt hfit2]
  refine ⟨hnap, ?_, ?_, ?_⟩
  · rw [hnap]; exact nanosec_to_timespec_nsecs _
  · rw [hnap]; exact nanosec_to_timespec_canonical _
  · intro hb hl hbytes
    rw [hnap, hb, hl, hbytes]
    have hq : (a.now_us - a.start_us + 1000) * 8 * 1000000 / 8000000
        = a.now_us - a.start_us + 1000 := by omega
    rw [hq]
    have hd : (a.now_us - a.start_us + 1000 - (a.now_us - a.start_us)) * 1000
        = 1000000 := by omega
    rw [hd]
    rfl

/-- Witness for C3: the fourth 1000-byte packet at 8,000,000 bit/s, on
schedule, leaves a nap of 1 ms. -/
theorem mbps_ahead_nap_witness :
    (do_sleep exact_host mbps_opts on_schedule_args (State.init 0)).st.nap
        = NANOSEC_TO_TIMESPEC (((3000 + 1000) * 8 * 1000000 / 8000000
            - (5003000 - 5000000)) * 1000)
      ∧ (do_sleep exact_host mbps_opts on_schedule_args (State.init 0)).st.nap
        = ⟨0, 1000000⟩ :=
  have w := mbps_ahead_nap exact_host mbps_opts on_schedule_args (State.init 0)
    1000 8000000 (by decide) (by decide) (by decide) (by decide) (by decide)
    (by decide) (by decide) (by decide) (by decide) (by decide) (by decide)
    (by decide)
  ⟨w.1, w.2.2.2 rfl rfl (by decide)⟩

/-- C4: in ConstantThroughput mode, for a call that passes the gate with
`now_us` set, `bps >= 1` and no 64-bit overflow, if the elapsed time lies after
the scheduled send time `next_tx_us`, the call writes
`*skip_length = (elapsed_us - next_tx_us) * bps / 8000000`; a lag of 1,000,000
microseconds at 8,000,000 bit/s gives 1,000,000 bytes. -/
theorem mbps_behind_skip {F : Type} (h : Host F) (o : Options F) (a : Args)
    (s : State) (len bps : Nat)
    (hsend : s.send = 0) (hmode : o.speed.mode = SPEED_MBPSRATE)
    (hnow : a.now_us ≠ 0) (hnow64 : a.now_us < 2 ^ 64)
    (hstart : a.start_us ≤ a.now_us)
    (hbps : h.float_to_counter o.speed.speed = bps) (hbps1 : 1 ≤ bps)
    (hbps64 : bps < 2 ^ 64)
    (hlen : a.len = (len : Int))
    (hfit : (a.bytes_sent + len) * 8 * 1000000 < 2 ^ 64)
    (hbehind : a.now_us - a.start_us > (a.bytes_sent + len) * 8 * 1000000 / bps)
    (hfit2 : (a.now_us - a.start_us
                - (a.bytes_sent + len) * 8 * 1000000 / bps) * bps < 2 ^ 64) :
    (do_sleep h o a s).st.skip_length
        = (a.now_us - a.start_us
            - (a.bytes_sent + len) * 8 * 1000000 / bps) * bps / 8000000
      ∧ (bps = 8000000 →
          a.now_us - a.start_us
            - (a.bytes_sent + len) * 8 * 1000000 / bps = 1000000 →
          (do_sleep h o a s).st.skip_length = 1000000) := by
  have hskip : (do_sleep h o a s).st.skip_length
        = (a.now_us - a.start_us
            - (a.bytes_sent + len) * 8 * 1000000 / bps) * bps / 8000000 := by
    rw [mbps_do_sleep h o a s len bps hsend hmode hnow hnow64 hstart hbps hbps1
      hbps64 hlen hfit]
    have hna : ¬ ((a.bytes_sent + len) * 8 * 1000000 / bps
        > a.now_us - a.start_us) := by omega
    simp only [hna, hbehind, if_true, if_false, sleep_phase_st,
      Nat.mod_eq_of_lt hfit2]
  refine ⟨hskip, ?_⟩
  intro hb hd
  rw [hskip, hd, hb]

/-- Witness for C4: a first 1000-byte packet handed over one second late at
8,000,000 bit/s yields a skip advice of 1,000,000 bytes. -/
theorem mbps_behind_skip_witness :
    (do_sleep exact_host mbps_opts behind_args (State.init 0)).st.skip_length
        = (6001000 - 5000000 - (0 + 1000) * 8 * 1000000 / 8000000) * 8000000
            / 8000000
      ∧ (do_sleep exact_host mbps_opts behind_args (State.init 0)).st.skip_length
        = 1000000 :=
  have w := mbps_behind_skip exact_host mbps_opts behind_args (State.init 0)
    1000 8000000 (by decide) (by decide) (by decide) (by decide) (by decide)
    (by decide) (by decide) (by decide) (by decide) (by decide) (by decide)
    (by decide)
  ⟨w.1, w.2 rfl (by decide)⟩

/-- C5 (evaluation of the code): from the initial state at 8,000,000 bit/s, the
fourth packet is on schedule and naps 1 ms; the fifth packet is 1,995,000
microseconds behind schedule, and the call still hands the 1 ms nap left by its
predecessor to the sleep primitive while advising a skip of 1,995,000 bytes. -/
theorem mbps_behind_sleeps_stale_nap :
    run_session exact_host mbps_opts [on_schedule_args, late_args] (State.init 0)
      = ⟨{ nap := ⟨0, 1000000⟩, send := 0, first_time := true,
           skip_length := 1995000 },
         [.trace_entry 4000 5003000 3000 4000, .sleep ACCURATE_NANOSLEEP ⟨0, 1000000⟩,
          .trace_entry 5000 7000000 2000000 5000,
          .sleep ACCURATE_NANOSLEEP ⟨0, 1000000⟩],
         .returned⟩ := by
  decide

/-! ## ConstantPacketRate mode -/

/-- The multiplier of line 204 is the larger of `pps_multi` and 1. -/
theorem pps_factor_eq_max (p : Int) : (if p > 0 then p else 1) = max p 1 := by
  split_ifs with hp
  · exact (max_eq_left (by omega)).symm
  · exact (max_eq_right (by omega)).symm

/-- The `SPEED_PACKETRATE` case of the strategy `switch`. -/
theorem strategy_packetrate {F : Type} (h : Host F) (o : Options F) (a : Args)
    (s : State) (hmode : o.speed.mode = SPEED_PACKETRATE) :
    strategy h o a s =
      if timesisset s.nap = false then
        sleep_phase h o a { s with nap := NANOSEC_TO_TIMESPEC (ppnsec h o) }
          [.dbgx_sending (if o.speed.pps_multi > 0 then o.speed.pps_multi else 1)
            (NANOSEC_TO_TIMESPEC (ppnsec h o))]
      else sleep_phase h o a s [] := by
  have hm1 : ¬ (SPEED_PACKETRATE = SPEED_MULTIPLIER) := by decide
  have hm2 : ¬ (SPEED_PACKETRATE = SPEED_MBPSRATE) := by decide
  unfold strategy
  simp only [hmode, hm1, hm2, if_false, if_true]
  cases hset : timesisset s.nap <;> simp

/-- A call in ConstantPacketRate mode either returns before the strategy
`switch` with the nap untouched and no effect, or runs the `switch` on a state
with the same nap. -/
theorem do_sleep_packetrate {F : Type} (h : Host F) (o : Options F) (a : Args)
    (s : State) (hmode : o.speed.mode = SPEED_PACKETRATE) :
    (∃ s1 : State, s1.nap = s.nap ∧ do_sleep h o a s = ⟨s1, [], .returned⟩)
      ∨ (∃ s1 : State, s1.nap = s.nap ∧ do_sleep h o a s = strategy h o a s1) := by
  have hm : ¬ (SPEED_PACKETRATE = SPEED_TOPSPEED) := by decide
  unfold do_sleep
  by_cases hs : s.send > 0
  · left
    exact ⟨{ s with send := s.send - 1 }, rfl, by simp only [hs, if_true]⟩
  · by_cases hp : o.speed.pps_multi ≠ 0
    · cases hf : s.first_time
      · right
        refine ⟨{ s with send := to_u32 (o.speed.pps_multi - 1) }, rfl, ?_⟩
        simp [hs, hp, hmode, hm, hf]
      · left
        refine ⟨{ s with send := to_u32 (o.speed.pps_multi - 1), first_time := false },
          rfl, ?_⟩
        simp [hs, hp, hmode, hf]
    · right
      refine ⟨s, rfl, ?_⟩
      simp only [hs, hp, hmode, hm, and_false, if_false]

/-- C6: in ConstantPacketRate mode, a call that passes the gate, is not the
skipped first call of a burst session, and finds the persistent nap unset, sets
the nap to `(1000000000 / speed) * max(pps_multi, 1)` nanoseconds (evaluated in
`float`, converted to a 64-bit count), split into seconds and nanoseconds. -/
theorem packetrate_nap_value {F : Type} (h : Host F) (o : Options F) (a : Args)
    (s : State)
    (hsend : s.send = 0) (hmode : o.speed.mode = SPEED_PACKETRATE)
    (hdisp : o.speed.pps_multi = 0 ∨ s.first_time = false)
    (hunset : timesisset s.nap = false) :
    (do_sleep h o a s).st.nap
        = NANOSEC_TO_TIMESPEC
            (h.float_to_counter
              (h.float_mul (h.float_div (h.float_of_int 1000000000) o.speed.speed)
                (h.float_of_int (max o.speed.pps_multi 1))) % 2 ^ 64)
      ∧ (do_sleep h o a s).st.nap.nsecs
        = ((h.float_to_counter
              (h.float_mul (h.float_div (h.float_of_int 1000000000) o.speed.speed)
                (h.float_of_int (max o.speed.pps_multi 1))) % 2 ^ 64 : Nat) : Int)
      ∧ (do_sleep h o a s).st.nap.canonical := by
  have hm : ¬ (SPEED_PACKETRATE = SPEED_TOPSPEED) := by decide
  have hnap : (do_sleep h o a s).st.nap = NANOSEC_TO_TIMESPEC (ppnsec h o) := by
    unfold do_sleep
    rcases hdisp with hp | hf
    · simp only [hsend, hp, hmode, hm, lt_irrefl, ne_eq, not_true_eq_false,
        and_false, if_false]
      rw [strategy_packetrate h o a s hmode]
      simp only [hunset, if_true, sleep_phase_st]
    · by_cases hp : o.speed.pps_multi = 0
      · simp only [hsend, hp, hmode, hm, lt_irrefl, ne_eq, not_true_eq_false,
          and_false, if_false]
        rw [strategy_packetrate h o a s hmode]
        simp only [hunset, if_true, sleep_phase_st]
      · simp only [hsend, hp, hmode, hm, hf, lt_irrefl, ne_eq, not_false_eq_true,
          and_true, if_false, if_true, Bool.false_eq_true]
        rw [strategy_packetrate h o a _ hmode]
        simp only [hunset, if_true, sleep_phase_st]
  have hpp : ppnsec h o
      = h.float_to_counter
          (h.float_mul (h.float_div (h.float_of_int 1000000000) o.speed.speed)
            (h.float_of_int (max o.speed.pps_multi 1))) % 2 ^ 64 := by
    unfold ppnsec
    rw [pps_factor_eq_max]
  rw [hpp] at hnap
  refine ⟨hnap, ?_, ?_⟩
  · rw [hnap]; exact nanosec_to_timespec_nsecs _
  · rw [hnap]; exact nanosec_to_timespec_canonical _

/-- Witness for C6: 1000 packets/s with `pps_multi = 5` gives a nap of
5,000,000 ns. -/
theorem packetrate_nap_value_witness :
    (do_sleep exact_host pps_opts mult_args second_call_state).st.nap
        = NANOSEC_TO_TIMESPEC
            (exact_host.float_to_counter
              (exact_host.float_mul
                (exact_host.float_div (exact_host.float_of_int 1000000000)
                  pps_opts.speed.speed)
                (exact_host.float_of_int (max pps_opts.speed.pps_multi 1))) % 2 ^ 64)
      ∧ NANOSEC_TO_TIMESPEC
            (exact_host.float_to_counter
              (exact_host.float_mul
                (exact_host.float_div (exact_host.float_of_int 1000000000)
                  pps_opts.speed.speed)
                (exact_host.float_of_int (max pps_opts.speed.pps_multi 1))) % 2 ^ 64)
        = ⟨0, 5000000⟩ :=
  ⟨(packetrate_nap_value exact_host pps_opts mult_args second_call_state
      (by decide) (by decide) (Or.inr (by decide)) (by decide)).1, by decide⟩

/-- The effects of the sleep phase: the effects so far, followed by at most
one sleep with the clamped nap, and that only for a set nap. -/
theorem sleep_phase_events {F : Type} (h : Host F) (o : Options F) (a : Args)
    (s : State) (ev : List Event) :
    (sleep_phase h o a s ev).events = ev
      ∨ (timesisset s.nap = true
          ∧ (sleep_phase h o a s ev).events
              = ev ++ [.sleep a.accurate (clamp_nap s.nap o.maxsleep)]) := by
  unfold sleep_phase
  cases hset : timesisset s.nap
  · left; simp
  · cases hb : backend_supported h a.accurate
    · left; simp
    · right; simp

/-- A sleep effect is not a nap computation. -/
theorem nap_computations_append_sleep (ev : List Event) (acc : Int) (d : Timespec) :
    nap_computations (ev ++ [.sleep acc d]) = nap_computations ev := by
  unfold nap_computations
  simp [List.countP_append]

/-- The zero duration is not set. -/
theorem timesisset_zero : timesisset ⟨0, 0⟩ = false := by decide

/-- One run of the `SPEED_PACKETRATE` case from a state whose nap is unset or
already the packet-rate nap. -/
theorem strategy_packetrate_step {F : Type} (h : Host F) (o : Options F)
    (a : Args) (s : State) (hmode : o.speed.mode = SPEED_PACKETRATE)
    (hinv : s.nap = ⟨0, 0⟩ ∨ s.nap = NANOSEC_TO_TIMESPEC (ppnsec h o)) :
    (strategy h o a s).st.nap = NANOSEC_TO_TIMESPEC (ppnsec h o)
      ∧ (∀ acc d, Event.sleep acc d ∈ (strategy h o a s).events →
          d = clamp_nap (NANOSEC_TO_TIMESPEC (ppnsec h o)) o.maxsleep)
      ∧ (timesisset (NANOSEC_TO_TIMESPEC (ppnsec h o)) = true →
          nap_computations (strategy h o a s).events
            + (if timesisset s.nap = true then 1 else 0) = 1) := by
  rw [strategy_packetrate h o a s hmode]
  cases hset : timesisset s.nap
  · simp only [if_true, sleep_phase_st]
    refine ⟨trivial, ?_, ?_⟩
    · intro acc d hmem
      rcases sleep_phase_events h o a
        { s with nap := NANOSEC_TO_TIMESPEC (ppnsec h o) }
        [.dbgx_sending (if o.speed.pps_multi > 0 then o.speed.pps_multi else 1)
          (NANOSEC_TO_TIMESPEC (ppnsec h o))] with he | ⟨_, he⟩
      · rw [he] at hmem; simp at hmem
      · rw [he] at hmem
        simp at hmem
        exact hmem.2
    · intro _
      rcases sleep_phase_events h o a
        { s with nap := NANOSEC_TO_TIMESPEC (ppnsec h o) }
        [.dbgx_sending (if o.speed.pps_multi > 0 then o.speed.pps_multi else 1)
          (NANOSEC_TO_TIMESPEC (ppnsec h o))] with he | ⟨_, he⟩
      · rw [he]; simp [nap_computations]
      · rw [he, nap_computations_append_sleep]; simp [nap_computations]
  · have hN : s.nap = NANOSEC_TO_TIMESPEC (ppnsec h o) := by
      rcases hinv with h0 | hN
      · rw [h0, timesisset_zero] at hset; cases hset
      · exact hN
    simp only [Bool.true_eq_false, if_false, if_true, sleep_phase_st]
    refine ⟨hN, ?_, ?_⟩
    · intro acc d hmem
      rcases sleep_phase_events h o a s [] with he | ⟨_, he⟩
      · rw [he] at hmem; simp at hmem
      · rw [he] at hmem
        simp at hmem
        rw [hmem.2, hN]
    · intro _
      rcases sleep_phase_events h o a s [] with he | ⟨_, he⟩
      · rw [he]; simp [nap_computations]
      · rw [he, nap_computations_append_sleep]; simp [nap_computations]

/-- One call of `do_sleep` in ConstantPacketRate mode preserves "the nap is
unset or the packet-rate nap", sleeps only the clamped packet-rate nap, and
computes the nap exactly when it turns the nap from unset to set. -/
theorem do_sleep_packetrate_step {F : Type} (h : Host F) (o : Options F)
    (a : Args) (s : State) (hmode : o.speed.mode = SPEED_PACKETRATE)
    (hinv : s.nap = ⟨0, 0⟩ ∨ s.nap = NANOSEC_TO_TIMESPEC (ppnsec h o)) :
    ((do_sleep h o a s).st.nap = ⟨0, 0⟩
        ∨ (do_sleep h o a s).st.nap = NANOSEC_TO_TIMESPEC (ppnsec h o))
      ∧ (∀ acc d, Event.sleep acc d ∈ (do_sleep h o a s).events →
          d = clamp_nap (NANOSEC_TO_TIMESPEC (ppnsec h o)) o.maxsleep)
      ∧ (timesisset (NANOSEC_TO_TIMESPEC (ppnsec h o)) = true →
          nap_computations (do_sleep h o a s).events
            + (if timesisset s.nap = true then 1 else 0)
          = (if timesisset (do_sleep h o a s).st.nap = true then 1 else 0)) := by
  rcases do_sleep_packetrate h o a s hmode with ⟨s1, hnap, heq⟩ | ⟨s1, hnap, heq⟩
  · rw [heq]
    refine ⟨by simpa [hnap] using hinv, ?_, ?_⟩
    · intro acc d hmem; simp at hmem
    · intro _; simp [nap_computations, hnap]
  · rw [heq]
    have hinv1 : s1.nap = ⟨0, 0⟩ ∨ s1.nap = NANOSEC_TO_TIMESPEC (ppnsec h o) := by
      rw [hnap]; exact hinv
    obtain ⟨h1, h2, h3⟩ := strategy_packetrate_step h o a s1 hmode hinv1
    refine ⟨Or.inr h1, h2, ?_⟩
    intro hN
    have := h3 hN
    rw [hnap] at this
    rw [this, h1, hN]
    simp

/-- A whole ConstantPacketRate session from a state whose nap is unset or the
packet-rate nap. -/
theorem run_session_packetrate {F : Type} (h : Host F) (o : Options F)
    (hmode : o.speed.mode = SPEED_PACKETRATE) (as : List Args) :
    ∀ s : State, (s.nap = ⟨0, 0⟩ ∨ s.nap = NANOSEC_TO_TIMESPEC (ppnsec h o)) →
      ((run_session h o as s).st.nap = ⟨0, 0⟩
          ∨ (run_session h o as s).st.nap = NANOSEC_TO_TIMESPEC (ppnsec h o))
        ∧ (∀ acc d, Event.sleep acc d ∈ (run_session h o as s).events →
            d = clamp_nap (NANOSEC_TO_TIMESPEC (ppnsec h o)) o.maxsleep)
        ∧ (timesisset (NANOSEC_TO_TIMESPEC (ppnsec h o)) = true →
            nap_computations (run_session h o as s).events
              + (if timesisset s.nap = true then 1 else 0)
            = (if timesisset (run_session h o as s).st.nap = true then 1 else 0)) := by
  induction as with
  | nil =>
    intro s hinv
    refine ⟨hinv, ?_, ?_⟩
    · intro acc d hmem; simp [run_session] at hmem
    · intro _; simp [run_session, nap_computations]
  | cons a rest ih =>
    intro s hinv
    obtain ⟨h1, h2, h3⟩ := do_sleep_packetrate_step h o a s hmode hinv
    unfold run_session
    by_cases hexit : (do_sleep h o a s).exit = .returned
    · obtain ⟨i1, i2, i3⟩ := ih (do_sleep h o a s).st h1
      simp only [hexit, if_true]
      refine ⟨i1, ?_, ?_⟩
      · intro acc d hmem
        rcases List.mem_append.mp hmem with hm | hm
        · exact h2 acc d hm
        · exact i2 acc d hm
      · intro hN
        have e1 := h3 hN
        have e2 := i3 hN
        unfold nap_computations at *
        rw [List.countP_append]
        omega
    · simp only [hexit, if_false]
      exact ⟨h1, h2, h3⟩

/-- A ConstantPacketRate call that passes the gate and is not the skipped
first call runs the strategy `switch` on a state with the same nap. -/
theorem do_sleep_packetrate_dispatch {F : Type} (h : Host F) (o : Options F)
    (a : Args) (s : State) (hmode : o.speed.mode = SPEED_PACKETRATE)
    (hsend : s.send = 0)
    (hdisp : o.speed.pps_multi = 0 ∨ s.first_time = false) :
    ∃ s1 : State, s1.nap = s.nap
      ∧ s1.send = (if o.speed.pps_multi = 0 then 0 else to_u32 (o.speed.pps_multi - 1))
      ∧ s1.first_time = s.first_time
      ∧ do_sleep h o a s = strategy h o a s1 := by
  have hm : ¬ (SPEED_PACKETRATE = SPEED_TOPSPEED) := by decide
  unfold do_sleep
  by_cases hp : o.speed.pps_multi = 0
  · refine ⟨s, rfl, by simp [hp, hsend], rfl, ?_⟩
    simp only [hsend, hp, hmode, hm, lt_irrefl, ne_eq, not_true_eq_false,
      and_false, if_false]
  · have hf : s.first_time = false := by
      rcases hdisp with h0 | hf
      · exact absurd h0 hp
      · exact hf
    refine ⟨{ s with send := to_u32 (o.speed.pps_multi - 1) }, rfl, ?_, rfl, ?_⟩
    · simp [hp]
    · simp only [hsend, hp, hmode, hm, hf, lt_irrefl, ne_eq, not_false_eq_true,
        and_true, if_false, if_true, Bool.false_eq_true]

/-- C7 (as amended): over every sequence of calls of one ConstantPacketRate
session from the initial state, the persistent nap is unset or the packet-rate
nap `N`; every later call that reaches the strategy dispatch uses `N`, whatever
its timestamps, length and counters; every sleep of the session lasts the
clamped `N`; and when `N` is non-zero the nap computation has run exactly once
as soon as the nap is set, and not at all before. -/
theorem packetrate_nap_cached {F : Type} (h : Host F) (o : Options F)
    (hmode : o.speed.mode = SPEED_PACKETRATE) (skip : Nat) (as : List Args) :
    ((run_session h o as (State.init skip)).st.nap = ⟨0, 0⟩
        ∨ (run_session h o as (State.init skip)).st.nap
            = NANOSEC_TO_TIMESPEC (ppnsec h o))
      ∧ (∀ a : Args, (run_session h o as (State.init skip)).st.send = 0 →
          (o.speed.pps_multi = 0
            ∨ (run_session h o as (State.init skip)).st.first_time = false) →
          (do_sleep h o a (run_session h o as (State.init skip)).st).st.nap
            = NANOSEC_TO_TIMESPEC (ppnsec h o))
      ∧ (∀ acc d, Event.sleep acc d ∈ (run_session h o as (State.init skip)).events →
          d = clamp_nap (NANOSEC_TO_TIMESPEC (ppnsec h o)) o.maxsleep)
      ∧ (timesisset (NANOSEC_TO_TIMESPEC (ppnsec h o)) = true →
          nap_computations (run_session h o as (State.init skip)).events
            = (if timesisset (run_session h o as (State.init skip)).st.nap = true
                then 1 else 0)) := by
  obtain ⟨h1, h2, h3⟩ :=
    run_session_packetrate h o hmode as (State.init skip) (Or.inl rfl)
  refine ⟨h1, ?_, h2, ?_⟩
  · intro a hsend hdisp
    obtain ⟨s1, hnap, _, _, heq⟩ :=
      do_sleep_packetrate_dispatch h o a _ hmode hsend hdisp
    rw [heq]
    exact (strategy_packetrate_step h o a s1 hmode (by rw [hnap]; exact h1)).1
  · intro hN
    have e := h3 hN
    have h0 : timesisset (State.init skip).nap = false := rfl
    simp only [h0, Bool.false_eq_true, if_false, add_zero] at e
    exact e

/-- Witness for C7: twelve differing packets at 1000 packets/s in bursts of 5;
the nap of 5 ms is computed once and both sleeps of the session last 5 ms. -/
theorem packetrate_nap_cached_witness :
    (nap_computations (run_session exact_host pps_opts twelve_packets (State.init 0)).events
        = (if timesisset (run_session exact_host pps_opts twelve_packets
              (State.init 0)).st.nap = true then 1 else 0))
      ∧ nap_computations
          (run_session exact_host pps_opts twelve_packets (State.init 0)).events = 1
      ∧ (run_session exact_host pps_opts twelve_packets (State.init 0)).events
          = [.dbgx_sending 5 ⟨0, 5000000⟩, .sleep ACCURATE_GTOD ⟨0, 5000000⟩,
             .sleep ACCURATE_GTOD ⟨0, 5000000⟩] :=
  ⟨(packetrate_nap_cached exact_host pps_opts (by decide) 0 twelve_packets).2.2.2
      (by decide), by decide, by decide⟩

/-- Counterexample for C7 as stated: at 2,000,000,000 packets/s the nap is
`1000000000 / 2000000000 = 0.5` ns, stored as 0; the nap stays unset and the
computation runs in each of the two calls of the session, not once. -/
theorem packetrate_nap_recomputed_when_zero :
    fast_pps_opts.speed.mode = SPEED_PACKETRATE
      ∧ run_session exact_host fast_pps_opts [mult_args, on_schedule_args]
          (State.init 0)
        = ⟨State.init 0,
           [.dbgx_sending 1 ⟨0, 0⟩, .dbgx_sending 1 ⟨0, 0⟩], .returned⟩
      ∧ nap_computations
          (run_session exact_host fast_pps_opts [mult_args, on_schedule_args]
            (State.init 0)).events = 2 := by
  decide

/-! ## MaxSleepClamp -/

/-- The sleep phase started with effects that contain no sleep only sleeps the
clamped nap. -/
theorem sleeps_clamped_sleep_phase {F : Type} (h : Host F) (o : Options F)
    (a : Args) (s : State) (ev : List Event)
    (hev : ∀ acc d, Event.sleep acc d ∉ ev) :
    sleeps_clamped o a (sleep_phase h o a s ev) := by
  intro acc d hmem
  rw [sleep_phase_st]
  rcases sleep_phase_events h o a s ev with he | ⟨hset, he⟩
  · rw [he] at hmem; exact absurd hmem (hev acc d)
  · rw [he] at hmem
    rcases List.mem_append.mp hmem with hm | hm
    · exact absurd hm (hev acc d)
    · simp at hm
      exact ⟨hset, hm.1, hm.2⟩

/-- An outcome without sleep effects. -/
theorem sleeps_clamped_of_no_sleep {F : Type} (o : Options F) (a : Args)
    (r : Outcome) (hev : ∀ acc d, Event.sleep acc d ∉ r.events) :
    sleeps_clamped o a r := by
  intro acc d hmem
  exact absurd hmem (hev acc d)

/-- Every outcome of the strategy `switch` only sleeps the clamped nap. -/
theorem sleeps_clamped_strategy {F : Type} (h : Host F) (o : Options F)
    (a : Args) (s : State) : sleeps_clamped o a (strategy h o a s) := by
  unfold strategy
  dsimp only
  split_ifs
  all_goals first
    | (apply sleeps_clamped_sleep_phase; intro acc d hmem; simp at hmem)
    | (apply sleeps_clamped_of_no_sleep; intro acc d hmem; simp at hmem)
    | (split <;>
        (apply sleeps_clamped_of_no_sleep; intro acc d hmem; simp at hmem))

/-- Every outcome of `do_sleep` only sleeps the clamped nap. -/
theorem sleeps_clamped_do_sleep {F : Type} (h : Host F) (o : Options F)
    (a : Args) (s : State) : sleeps_clamped o a (do_sleep h o a s) := by
  unfold do_sleep
  split_ifs
  all_goals first
    | exact sleeps_clamped_strategy h o a _
    | (apply sleeps_clamped_of_no_sleep; intro acc d hmem; simp at hmem)

/-- For canonical durations, "not greater" in the seconds-then-nanoseconds
order means "at most" as a count of nanoseconds. -/
theorem nsecs_le_of_not_timescmp_gt (x y : Timespec) (hx : x.canonical)
    (hy : y.canonical) (hle : timescmp_gt x y = false) : x.nsecs ≤ y.nsecs := by
  unfold Timespec.canonical at hx hy
  unfold Timespec.nsecs
  unfold timescmp_gt at hle
  by_cases hs : x.tv_sec = y.tv_sec
  · simp [hs] at hle; rw [hs]; omega
  · simp [hs] at hle; omega

/-- The clamped nap never compares greater than a set ceiling. -/
theorem clamp_nap_not_gt (nap maxsleep : Timespec)
    (hset : timesisset maxsleep = true) :
    timescmp_gt (clamp_nap nap maxsleep) maxsleep = false := by
  unfold clamp_nap
  cases hgt : timescmp_gt nap maxsleep
  · simp [hgt]
  · simp [hset, timescmp_gt]

/-- C8: when the computed nap is non-zero and the selected backend exists, the
sleep primitive receives `maxsleep` if `maxsleep` is set and the nap compares
greater (seconds first, then nanoseconds), and the nap otherwise; every sleep
of any call is of this form, so the applied delay never compares greater than
a set ceiling, equals the ceiling whenever the nap compares greater, and for
canonical durations is at most the ceiling in nanoseconds. -/
theorem maxsleep_clamp {F : Type} (h : Host F) (o : Options F) (a : Args)
    (s : State) :
    (∀ ev : List Event, timesisset s.nap = true →
        backend_supported h a.accurate = true →
        sleep_phase h o a s ev
          = ⟨s, ev ++ [.sleep a.accurate
              (if timesisset o.maxsleep = true ∧ timescmp_gt s.nap o.maxsleep = true
                then o.maxsleep else s.nap)], .returned⟩)
      ∧ (∀ acc d, Event.sleep acc d ∈ (do_sleep h o a s).events →
          timesisset (do_sleep h o a s).st.nap = true
            ∧ d = (if timesisset o.maxsleep = true
                      ∧ timescmp_gt (do_sleep h o a s).st.nap o.maxsleep = true
                    then o.maxsleep else (do_sleep h o a s).st.nap)
            ∧ (timesisset o.maxsleep = true → timescmp_gt d o.maxsleep = false)
            ∧ (timesisset o.maxsleep = true →
                timescmp_gt (do_sleep h o a s).st.nap o.maxsleep = true →
                d = o.maxsleep)
            ∧ (timesisset o.maxsleep = true → o.maxsleep.canonical →
                (do_sleep h o a s).st.nap.canonical →
                d.canonical ∧ d.nsecs ≤ o.maxsleep.nsecs)) := by
  have hclamp : ∀ nap : Timespec, clamp_nap nap o.maxsleep
      = (if timesisset o.maxsleep = true ∧ timescmp_gt nap o.maxsleep = true
          then o.maxsleep else nap) := by
    intro nap
    unfold clamp_nap
    simp only [Bool.and_eq_true]
  refine ⟨?_, ?_⟩
  · intro ev hset hb
    unfold sleep_phase
    simp only [hset, hb, Bool.not_true, Bool.false_eq_true, if_false, if_true,
      hclamp]
  · intro acc d hmem
    obtain ⟨hset, _, hd⟩ := sleeps_clamped_do_sleep h o a s acc d hmem
    refine ⟨hset, ?_, ?_, ?_, ?_⟩
    · rw [hd, hclamp]
    · intro hmax
      rw [hd]
      exact clamp_nap_not_gt _ _ hmax
    · intro hmax hgt
      rw [hd, hclamp]
      simp only [hmax, hgt, and_self, if_true]
    · intro hmax hcm hcn
      have hdc : d.canonical := by
        rw [hd, hclamp]
        split_ifs
        · exact hcm
        · exact hcn
      refine ⟨hdc, nsecs_le_of_not_timescmp_gt d o.maxsleep hdc hcm ?_⟩
      rw [hd]
      exact clamp_nap_not_gt _ _ hmax

/-- Witness for C8: a 7.25 s gap replayed at speed 1 under a ceiling of 2 s is
slept as exactly 2 s. -/
theorem maxsleep_clamp_witness :
    Event.sleep ACCURATE_SELECT ⟨2, 0⟩
        ∈ (do_sleep exact_host capped_opts gap_args (State.init 0)).events
      ∧ (do_sleep exact_host capped_opts gap_args (State.init 0)).st.nap
          = ⟨7, 250000000⟩
      ∧ (⟨2, 0⟩ : Timespec)
          = (if timesisset capped_opts.maxsleep = true
                ∧ timescmp_gt (do_sleep exact_host capped_opts gap_args
                    (State.init 0)).st.nap capped_opts.maxsleep = true
              then capped_opts.maxsleep
              else (do_sleep exact_host capped_opts gap_args (State.init 0)).st.nap) :=
  ⟨by decide, by decide,
    ((maxsleep_clamp exact_host capped_opts gap_args (State.init 0)).2
      ACCURATE_SELECT ⟨2, 0⟩ (by decide)).2.1⟩

/-! ## Accelerator -/

/-- The accelerator gate of lines 119-123. -/
theorem do_sleep_gate {F : Type} (h : Host F) (o : Options F) (a : Args)
    (s : State) (hsend : s.send > 0) :
    do_sleep h o a s = ⟨{ s with send := s.send - 1 }, [], .returned⟩ := by
  unfold do_sleep
  simp only [hsend, if_true]

/-- C9: with `send > 0`, for every mode (TopSpeed and unknown values included),
every timestamp and every timer selector, `do_sleep` returns normally with
`send` decreased by exactly 1, with no effect at all (no sleep, no prompt), and
with the persistent nap, `first_time` and `*skip_length` unchanged. -/
theorem accelerator_gate {F : Type} (h : Host F) (o : Options F) (a : Args)
    (s : State) (hsend : s.send > 0) :
    do_sleep h o a s
        = ⟨{ nap := s.nap, send := s.send - 1, first_time := s.first_time,
             skip_length := s.skip_length }, [], .returned⟩
      ∧ (do_sleep h o a s).st.send + 1 = s.send := by
  have hg := do_sleep_gate h o a s hsend
  refine ⟨hg, ?_⟩
  rw [hg]
  show s.send - 1 + 1 = s.send
  omega

/-- Witness for C9: in TopSpeed mode with an unknown timer selector and three
packets of a burst pending, the call only lowers `send` to 2. -/
theorem accelerator_gate_witness :
    do_sleep exact_host topspeed_opts back_args burst_state
        = ⟨{ nap := ⟨0, 5000000⟩, send := 2, first_time := false,
             skip_length := 9 }, [], .returned⟩
      ∧ (do_sleep exact_host topspeed_opts back_args burst_state).st.send + 1 = 3 :=
  accelerator_gate exact_host topspeed_opts back_args burst_state (by decide)

/-- The re-arm value `pps_multi - 1` as a `u_int32_t`, for a positive
`pps_multi` in the range of `int`. -/
theorem to_u32_pred (n : Nat) (hpos : 0 < n) (hn : n < 2 ^ 31) :
    to_u32 ((n : Int) - 1) = n - 1 := by
  unfold to_u32
  have h1 : ((n : Int) - 1) % (2 ^ 32 : Int) = (n : Int) - 1 := by
    apply Int.emod_eq_of_lt <;> omega
  rw [h1]
  omega

/-- A session of one call is that call. -/
theorem run_session_singleton {F : Type} (h : Host F) (o : Options F) (a : Args)
    (s : State) : run_session h o [a] s = do_sleep h o a s := by
  unfold run_session
  by_cases hexit : (do_sleep h o a s).exit = .returned
  · simp only [hexit, if_true, run_session, List.append_nil]
    cases hr : do_sleep h o a s with
    | mk st events exit =>
      rw [hr] at hexit
      simp only at hexit
      simp only [hexit]
  · simp only [hexit, if_false]

/-- Unfolding a session by its first call. -/
theorem run_session_cons {F : Type} (h : Host F) (o : Options F) (a : Args)
    (rest : List Args) (s : State) :
    run_session h o (a :: rest) s
      = (if (do_sleep h o a s).exit = .returned then
          ⟨(run_session h o rest (do_sleep h o a s).st).st,
            (do_sleep h o a s).events
              ++ (run_session h o rest (do_sleep h o a s).st).events,
            (run_session h o rest (do_sleep h o a s).st).exit⟩
        else do_sleep h o a s) := rfl

/-- While the accelerator is armed, calls pass without effect: a session that
starts with at most `send` calls continues from the state with `send` lowered
by their number. -/
theorem run_session_gate {F : Type} (h : Host F) (o : Options F)
    (bs : List Args) (as : List Args) :
    ∀ s : State, as.length ≤ s.send →
      run_session h o (as ++ bs) s
        = run_session h o bs { s with send := s.send - as.length } := by
  induction as with
  | nil => intro s _; rfl
  | cons a rest ih =>
    intro s hlen
    simp only [List.length_cons] at hlen
    have hpos : s.send > 0 := by omega
    have hg := do_sleep_gate h o a s hpos
    have hrest := ih { s with send := s.send - 1 } (by show rest.length ≤ s.send - 1; omega)
    have hsub : s.send - 1 - rest.length = s.send - (rest.length + 1) := by omega
    show run_session h o (a :: (rest ++ bs)) s = _
    rw [run_session_cons, hg]
    simp only [if_true, List.nil_append]
    rw [hrest]
    simp only [hsub, List.length_cons]

/-- C10: in ConstantPacketRate mode with `pps_multi = n > 0`, every call that
passes the gate and returns leaves `send = n - 1` with `first_time` cleared;
from such a state, any `k <= n - 1` further calls return without any effect
and leave `send = n - 1 - k`, so `n - 1` of them leave `send = 0`; the `n`-th
call is not an early return: it passes the gate, re-arms `send = n - 1` and runs
the strategy `switch`, which leaves the nap set to the packet-rate nap or to
the value it already had. -/
theorem burst_cycle {F : Type} (h : Host F) (o : Options F) (n : Nat)
    (hmode : o.speed.mode = SPEED_PACKETRATE)
    (hn : o.speed.pps_multi = (n : Int)) (hpos : 0 < n) (hn31 : n < 2 ^ 31) :
    (∀ (a : Args) (s : State), s.send = 0 →
        (do_sleep h o a s).st.send = n - 1
          ∧ (do_sleep h o a s).st.first_time = false)
      ∧ (∀ (s : State) (as : List Args), s.send = n - 1 → as.length ≤ n - 1 →
          run_session h o as s
            = ⟨{ s with send := n - 1 - as.length }, [], .returned⟩)
      ∧ (∀ (s : State) (as : List Args) (a : Args), s.send = n - 1 →
          s.first_time = false → as.length = n - 1 →
          run_session h o (as ++ [a]) s = strategy h o a s
            ∧ (run_session h o (as ++ [a]) s).st.send = n - 1
            ∧ (run_session h o (as ++ [a]) s).st.nap
                = (if timesisset s.nap = true then s.nap
                    else NANOSEC_TO_TIMESPEC (ppnsec h o))) := by
  have hm : ¬ (SPEED_PACKETRATE = SPEED_TOPSPEED) := by decide
  have hp : o.speed.pps_multi ≠ 0 := by rw [hn]; omega
  have harm : to_u32 (o.speed.pps_multi - 1) = n - 1 := by
    rw [hn]; exact to_u32_pred n hpos hn31
  have hstrat : ∀ (a : Args) (s : State),
      (strategy h o a s).st.send = s.send
        ∧ (strategy h o a s).st.first_time = s.first_time
        ∧ (strategy h o a s).st.nap
            = (if timesisset s.nap = true then s.nap
                else NANOSEC_TO_TIMESPEC (ppnsec h o)) := by
    intro a s
    rw [strategy_packetrate h o a s hmode]
    cases hset : timesisset s.nap <;> simp [sleep_phase_st]
  refine ⟨?_, ?_, ?_⟩
  · intro a s hsend
    by_cases hf : s.first_time = true
    · have e : do_sleep h o a s
          = ⟨{ s with send := to_u32 (o.speed.pps_multi - 1), first_time := false },
              [], .returned⟩ := by
        unfold do_sleep
        simp [hsend, hp, hmode, hf]
      rw [e]
      exact ⟨harm, rfl⟩
    · have e : do_sleep h o a s
          = strategy h o a { s with send := to_u32 (o.speed.pps_multi - 1) } := by
        unfold do_sleep
        simp [hsend, hp, hmode, hm, hf]
      obtain ⟨h1, h2, _⟩ := hstrat a { s with send := to_u32 (o.speed.pps_multi - 1) }
      rw [e]
      exact ⟨h1.trans harm, h2.trans (by simpa using hf)⟩
  · intro s as hsend hlen
    have hg := run_session_gate h o [] as s (by rw [hsend]; exact hlen)
    rw [List.append_nil] at hg
    rw [hg, hsend]
    rfl
  · intro s as a hsend hf hlen
    have hg := run_session_gate h o [a] as s (by rw [hsend, hlen])
    have hcall : run_session h o (as ++ [a]) s = strategy h o a s := by
      have h0 : s.send - as.length = 0 := by omega
      have hs : (⟨s.nap, to_u32 (o.speed.pps_multi - 1), false,
          s.skip_length⟩ : State) = s := by
        rw [harm]
        cases s
        subst hsend
        subst hf
        rfl
      have e : do_sleep h o a { s with send := 0 } = strategy h o a s := by
        unfold do_sleep
        simp [hp, hmode, hm, hf]
        rw [hs]
      rw [hg, run_session_singleton, h0]
      exact e
    obtain ⟨h1, _, h3⟩ := hstrat a s
    rw [hcall]
    exact ⟨rfl, by rw [h1, hsend], h3⟩

/-- Witness for C10: with `pps_multi = 5`, the first call of the session arms
`send = 4`; the next four calls return without effect and leave `send = 0`;
the fifth re-arms `send = 4`, computes the 5 ms nap and sleeps it. -/
theorem burst_cycle_witness :
    do_sleep exact_host pps_opts mult_args (State.init 0)
        = ⟨armed_state, [], .returned⟩
      ∧ run_session exact_host pps_opts four_packets armed_state
        = ⟨{ armed_state with send := 5 - 1 - four_packets.length }, [], .returned⟩
      ∧ (5 - 1 - four_packets.length = 0)
      ∧ run_session exact_host pps_opts (four_packets ++ [mult_args]) armed_state
        = strategy exact_host pps_opts mult_args armed_state
      ∧ run_session exact_host pps_opts (four_packets ++ [mult_args]) armed_state
        = ⟨{ armed_state with nap := ⟨0, 5000000⟩ },
           [.dbgx_sending 5 ⟨0, 5000000⟩, .sleep ACCURATE_NANOSLEEP ⟨0, 5000000⟩],
           .returned⟩ :=
  have w := burst_cycle exact_host pps_opts 5 (by decide) (by decide) (by decide)
    (by decide)
  ⟨by decide, w.2.1 armed_state four_packets (by decide) (by decide), by decide,
    (w.2.2 armed_state four_packets mult_args (by decide) (by decide)
      (by decide)).1, by decide⟩

/-! ## First-invocation skip -/

/-- The strategy `switch` never touches `first_time`. -/
theorem strategy_first_time {F : Type} (h : Host F) (o : Options F) (a : Args)
    (s : State) : (strategy h o a s).st.first_time = s.first_time := by
  unfold strategy
  dsimp only
  split_ifs
  all_goals first
    | (rw [sleep_phase_st])
    | rfl
    | (split <;> rfl)

/-- Once `first_time` is cleared, no call sets it again. -/
theorem do_sleep_first_time_false {F : Type} (h : Host F) (o : Options F)
    (a : Args) (s : State) (hf : s.first_time = false) :
    (do_sleep h o a s).st.first_time = false := by
  unfold do_sleep
  dsimp only
  split_ifs
  all_goals first
    | exact hf
    | rfl
    | (rw [strategy_first_time]; exact hf)

/-- Once `first_time` is cleared, it stays cleared for the rest of the
session. -/
theorem run_session_first_time_false {F : Type} (h : Host F) (o : Options F)
    (as : List Args) :
    ∀ s : State, s.first_time = false →
      (run_session h o as s).st.first_time = false := by
  induction as with
  | nil => intro s hf; exact hf
  | cons a rest ih =>
    intro s hf
    rw [run_session_cons]
    have h1 := do_sleep_first_time_false h o a s hf
    by_cases hexit : (do_sleep h o a s).exit = .returned
    · simp only [hexit, if_true]
      exact ih _ h1
    · simp only [hexit, if_false]
      exact h1

/-- C11: in ConstantPacketRate mode with `pps_multi = n > 0`, the first call
from the initial state sets `send = n - 1`, clears `first_time` and returns with
no effect (no nap computed, no sleep); after the first call `first_time` is
cleared for the rest of the session, and a call that passes the gate with
`first_time` cleared runs the strategy `switch`, so the early return happens at
most once. With `pps_multi = 0` the first call runs the strategy `switch`: it
computes the nap and, when the nap is non-zero and the backend exists, sleeps
it. -/
theorem first_invocation_skip {F : Type} (h : Host F) (o : Options F)
    (hmode : o.speed.mode = SPEED_PACKETRATE) :
    (∀ n : Nat, 0 < n → n < 2 ^ 31 → o.speed.pps_multi = (n : Int) →
        (∀ (a : Args) (skip : Nat),
            do_sleep h o a (State.init skip)
              = ⟨⟨⟨0, 0⟩, n - 1, false, skip⟩, [], .returned⟩)
          ∧ (∀ (a : Args) (as : List Args) (skip : Nat),
              (run_session h o (a :: as) (State.init skip)).st.first_time = false)
          ∧ (∀ (s : State) (b : Args), s.first_time = false → s.send = 0 →
              do_sleep h o b s
                = strategy h o b ⟨s.nap, n - 1, s.first_time, s.skip_length⟩))
      ∧ (o.speed.pps_multi = 0 → ∀ (a : Args) (skip : Nat),
          do_sleep h o a (State.init skip) = strategy h o a (State.init skip)
            ∧ (do_sleep h o a (State.init skip)).st.nap
                = NANOSEC_TO_TIMESPEC (ppnsec h o)
            ∧ Event.dbgx_sending 1 (NANOSEC_TO_TIMESPEC (ppnsec h o))
                ∈ (do_sleep h o a (State.init skip)).events
            ∧ (timesisset (NANOSEC_TO_TIMESPEC (ppnsec h o)) = true →
                backend_supported h a.accurate = true →
                Event.sleep a.accurate
                    (clamp_nap (NANOSEC_TO_TIMESPEC (ppnsec h o)) o.maxsleep)
                  ∈ (do_sleep h o a (State.init skip)).events)) := by
  have hm : ¬ (SPEED_PACKETRATE = SPEED_TOPSPEED) := by decide
  refine ⟨?_, ?_⟩
  · intro n hpos hn31 hn
    have hp : o.speed.pps_multi ≠ 0 := by rw [hn]; omega
    have harm : to_u32 (o.speed.pps_multi - 1) = n - 1 := by
      rw [hn]; exact to_u32_pred n hpos hn31
    have hfirst : ∀ (a : Args) (skip : Nat),
        do_sleep h o a (State.init skip)
          = ⟨⟨⟨0, 0⟩, n - 1, false, skip⟩, [], .returned⟩ := by
      intro a skip
      unfold do_sleep
      simp [State.init, hp, hmode, harm]
    refine ⟨hfirst, ?_, ?_⟩
    · intro a as skip
      rw [run_session_cons, hfirst]
      simp only [if_true]
      exact run_session_first_time_false h o as _ rfl
    · intro s b hf hsend
      unfold do_sleep
      simp [hsend, hp, hmode, hm, hf, harm]
  · intro hp a skip
    have hcall : do_sleep h o a (State.init skip)
        = strategy h o a (State.init skip) := by
      unfold do_sleep
      simp [State.init, hp, hmode, hm]
    have hstrat : strategy h o a (State.init skip)
        = sleep_phase h o a
            { State.init skip with nap := NANOSEC_TO_TIMESPEC (ppnsec h o) }
            [.dbgx_sending 1 (NANOSEC_TO_TIMESPEC (ppnsec h o))] := by
      rw [strategy_packetrate h o a _ hmode]
      simp [State.init, timesisset, hp]
    refine ⟨hcall, ?_, ?_, ?_⟩
    · rw [hcall, hstrat, sleep_phase_st]
    · rw [hcall, hstrat]
      unfold sleep_phase
      split_ifs <;> simp
    · intro hset hb
      rw [hcall, hstrat]
      unfold sleep_phase
      simp [hset, hb]

/-- Witness for C11: with `pps_multi = 5` the first call only arms `send = 4`;
with `pps_multi = 0` at 1000 packets/s the first call computes the nap of 1 ms
and sleeps it. -/
theorem first_invocation_skip_witness :
    do_sleep exact_host pps_opts mult_args (State.init 0)
        = ⟨⟨⟨0, 0⟩, 5 - 1, false, 0⟩, [], .returned⟩
      ∧ do_sleep exact_host plain_pps_opts mult_args (State.init 0)
        = strategy exact_host plain_pps_opts mult_args (State.init 0)
      ∧ do_sleep exact_host plain_pps_opts mult_args (State.init 0)
        = ⟨{ State.init 0 with nap := ⟨0, 1000000⟩ },
           [.dbgx_sending 1 ⟨0, 1000000⟩, .sleep ACCURATE_NANOSLEEP ⟨0, 1000000⟩],
           .returned⟩ :=
  ⟨((first_invocation_skip exact_host pps_opts (by decide)).1 5 (by decide)
      (by decide) (by decide)).1 mult_args 0,
    ((first_invocation_skip exact_host plain_pps_opts (by decide)).2 (by decide)
      mult_args 0).1,
    by decide⟩

/-! ## Manual mode -/

/-- The value `get_user_count` returns for a line that was read. -/
theorem get_user_count_line {F : Type} (h : Host F) (line : List Char) :
    get_user_count h (.line line)
      = some (if line.length > 1 ∧ h.strtoul line % 2 ^ 32 ≠ 0
          then h.strtoul line % 2 ^ 32 else 1) := by
  unfold get_user_count
  by_cases hlen : line.length > 1
  · by_cases hz : h.strtoul line % 2 ^ 32 = 0
    · simp [hlen, hz]
    · simp [hlen, hz]
  · simp [hlen]

/-- A Manual-mode call that passes the gate: the prompt, then either `errx` or
the re-armed counter. -/
theorem do_sleep_manual {F : Type} (h : Host F) (o : Options F) (a : Args)
    (s : State) (hsend : s.send = 0) (hmode : o.speed.mode = SPEED_ONEATATIME) :
    do_sleep h o a s
      = (match get_user_count h a.stdin with
          | none => ⟨s, [.prompt a.counter], .errx⟩
          | some c =>
            ⟨⟨s.nap, to_u32 ((c : Int) - 1), s.first_time, s.skip_length⟩,
              [.prompt a.counter, .printf_sending a.counter], .returned⟩) := by
  have hm1 : ¬ (SPEED_ONEATATIME = SPEED_PACKETRATE) := by decide
  have hm2 : ¬ (SPEED_ONEATATIME = SPEED_TOPSPEED) := by decide
  have hm3 : ¬ (SPEED_ONEATATIME = SPEED_MULTIPLIER) := by decide
  have hm4 : ¬ (SPEED_ONEATATIME = SPEED_MBPSRATE) := by decide
  unfold do_sleep strategy
  simp only [hsend, hmode, hm1, hm2, hm3, hm4, lt_irrefl, false_and, if_false,
    if_true]

/-- The counter value `c - 1` fits: for `1 <= c < 2^32` the conversion to
`u_int32_t` does not wrap. -/
theorem to_u32_count_pred (c : Nat) (h1 : 1 ≤ c) (h2 : c < 2 ^ 32) :
    to_u32 ((c : Int) - 1) = c - 1 := by
  unfold to_u32
  have e : ((c : Int) - 1) % (2 ^ 32 : Int) = (c : Int) - 1 := by
    apply Int.emod_eq_of_lt <;> omega
  rw [e]
  omega

/-- C13: a Manual-mode call that passes the gate and reads a line prompts
once, sets `send = c - 1` for the count `c >= 1` of `get_user_count` (no wrap),
and returns with no sleep and the nap unchanged; the next `c - 1` calls pass
without prompt, so exactly `c` packets go out, and the call after them prompts
again. -/
theorem manual_arming {F : Type} (h : Host F) (o : Options F) (a : Args)
    (s : State) (line : List Char)
    (hsend : s.send = 0) (hmode : o.speed.mode = SPEED_ONEATATIME)
    (hin : a.stdin = .line line) :
    ∃ c : Nat, get_user_count h a.stdin = some c ∧ 1 ≤ c ∧ c < 2 ^ 32
      ∧ do_sleep h o a s
          = ⟨⟨s.nap, c - 1, s.first_time, s.skip_length⟩,
              [.prompt a.counter, .printf_sending a.counter], .returned⟩
      ∧ (∀ as : List Args, as.length ≤ c - 1 →
          run_session h o (a :: as) s
            = ⟨⟨s.nap, c - 1 - as.length, s.first_time, s.skip_length⟩,
                [.prompt a.counter, .printf_sending a.counter], .returned⟩)
      ∧ (∀ (as : List Args) (b : Args), as.length = c - 1 →
          run_session h o (a :: (as ++ [b])) s
              = ⟨(do_sleep h o b s).st,
                  [.prompt a.counter, .printf_sending a.counter]
                    ++ (do_sleep h o b s).events,
                  (do_sleep h o b s).exit⟩
            ∧ (do_sleep h o b s).events.head? = some (.prompt b.counter)) := by
  obtain ⟨c, hc, h1, h2, _⟩ := (show ∃ c : Nat,
      get_user_count h (.line line) = some c ∧ 1 ≤ c ∧ c < 2 ^ 32 ∧ True from by
    refine ⟨_, get_user_count_line h line, ?_, ?_, trivial⟩
    · split_ifs with hc
      · omega
      · exact le_refl 1
    · split_ifs with hc
      · exact Nat.mod_lt _ (by norm_num)
      · norm_num)
  rw [← hin] at hc
  have hcall : do_sleep h o a s
      = ⟨⟨s.nap, c - 1, s.first_time, s.skip_length⟩,
          [.prompt a.counter, .printf_sending a.counter], .returned⟩ := by
    rw [do_sleep_manual h o a s hsend hmode, hc]
    simp only [to_u32_count_pred c h1 h2]
  have hrun : ∀ (as bs : List Args), as.length ≤ c - 1 →
      run_session h o (a :: (as ++ bs)) s
        = ⟨(run_session h o bs
              ⟨s.nap, c - 1 - as.length, s.first_time, s.skip_length⟩).st,
            [.prompt a.counter, .printf_sending a.counter]
              ++ (run_session h o bs
                ⟨s.nap, c - 1 - as.length, s.first_time, s.skip_length⟩).events,
            (run_session h o bs
              ⟨s.nap, c - 1 - as.length, s.first_time, s.skip_length⟩).exit⟩ := by
    intro as bs hlen
    rw [run_session_cons, hcall]
    simp only [if_true]
    rw [run_session_gate h o bs as _ hlen]
  refine ⟨c, hc, h1, h2, hcall, ?_, ?_⟩
  · intro as hlen
    have e := hrun as [] hlen
    rw [List.append_nil] at e
    rw [e]
    rfl
  · intro as b hlen
    have e := hrun as [b] (by omega)
    have hs : (⟨s.nap, c - 1 - as.length, s.first_time, s.skip_length⟩ : State)
        = s := by
      have h0 : c - 1 - as.length = 0 := by omega
      rw [h0]
      cases s
      simp only at hsend
      subst hsend
      rfl
    rw [hs, run_session_singleton] at e
    refine ⟨e, ?_⟩
    rw [do_sleep_manual h o b s hsend hmode]
    cases get_user_count h b.stdin <;> rfl

/-- Witness for C13: the operator answers `3`: the call arms `send = 2`, two
more packets pass silently, and the fourth call prompts again. -/
theorem manual_arming_witness :
    (∃ c : Nat, get_user_count exact_host answer_3_args.stdin = some c ∧ 1 ≤ c
        ∧ c < 2 ^ 32
        ∧ do_sleep exact_host manual_opts answer_3_args (State.init 0)
            = ⟨⟨(State.init 0).nap, c - 1, (State.init 0).first_time,
                (State.init 0).skip_length⟩,
                [.prompt answer_3_args.counter,
                 .printf_sending answer_3_args.counter], .returned⟩)
      ∧ get_user_count exact_host answer_3_args.stdin = some 3
      ∧ run_session exact_host manual_opts
          [answer_3_args, mult_args, back_args, answer_0_args] (State.init 0)
        = ⟨State.init 0,
           [.prompt 11, .printf_sending 11, .prompt 14, .printf_sending 14],
           .returned⟩ :=
  have w := manual_arming exact_host manual_opts answer_3_args (State.init 0)
    ['3', Char.ofNat 10] (by decide) (by decide) rfl
  ⟨w.elim (fun c hc => ⟨c, hc.1, hc.2.1, hc.2.2.1, hc.2.2.2.1⟩), by decide,
    by decide⟩

/-! ## Fatal configuration errors -/

/-- C14: a call that passes the gate in TopSpeed mode fails the assertion, and
one whose mode is none of the five known values ends in `errx`; in both cases
there is no effect (no sleep) and the state, the nap included, is untouched.
From the initial state the first call of a session with such a mode is
fatal and ends the session, so no call returns normally. -/
theorem fatal_configuration {F : Type} (h : Host F) (o : Options F) (a : Args)
    (s : State) (hsend : s.send = 0) :
    (o.speed.mode = SPEED_TOPSPEED →
        do_sleep h o a s = ⟨s, [], .assert_failed⟩
          ∧ ∀ (as : List Args) (skip : Nat),
              run_session h o (a :: as) (State.init skip)
                = ⟨State.init skip, [], .assert_failed⟩)
      ∧ (o.speed.mode ≠ SPEED_MULTIPLIER → o.speed.mode ≠ SPEED_MBPSRATE →
          o.speed.mode ≠ SPEED_PACKETRATE → o.speed.mode ≠ SPEED_ONEATATIME →
          o.speed.mode ≠ SPEED_TOPSPEED →
          do_sleep h o a s = ⟨s, [], .errx⟩
            ∧ ∀ (as : List Args) (skip : Nat),
                run_session h o (a :: as) (State.init skip)
                  = ⟨State.init skip, [], .errx⟩) := by
  refine ⟨?_, ?_⟩
  · intro hmode
    have hm : ¬ (SPEED_TOPSPEED = SPEED_PACKETRATE) := by decide
    have hcall : ∀ s : State, s.send = 0 →
        do_sleep h o a s = ⟨s, [], .assert_failed⟩ := by
      intro s hs
      unfold do_sleep
      simp only [hs, hmode, hm, lt_irrefl, false_and, if_false, if_true]
    refine ⟨hcall s hsend, ?_⟩
    intro as skip
    rw [run_session_cons, hcall (State.init skip) rfl]
    simp
  · intro h1 h2 h3 h4 h5
    have hcall : ∀ s : State, s.send = 0 → do_sleep h o a s = ⟨s, [], .errx⟩ := by
      intro s hs
      unfold do_sleep strategy
      simp only [hs, h1, h2, h3, h4, h5, lt_irrefl, false_and, if_false]
    refine ⟨hcall s hsend, ?_⟩
    intro as skip
    rw [run_session_cons, hcall (State.init skip) rfl]
    simp

/-- Witness for C14: TopSpeed mode fails the assertion and mode 9 ends in
`errx`, both leaving the stale nap of 3.5 s unslept. -/
theorem fatal_configuration_witness :
    (do_sleep exact_host topspeed_opts mult_args stale_state
        = ⟨stale_state, [], .assert_failed⟩
      ∧ ∀ (as : List Args) (skip : Nat),
          run_session exact_host topspeed_opts (mult_args :: as) (State.init skip)
            = ⟨State.init skip, [], .assert_failed⟩)
      ∧ (do_sleep exact_host unknown_mode_opts mult_args stale_state
          = ⟨stale_state, [], .errx⟩
        ∧ ∀ (as : List Args) (skip : Nat),
            run_session exact_host unknown_mode_opts (mult_args :: as)
                (State.init skip)
              = ⟨State.init skip, [], .errx⟩) :=
  ⟨(fatal_configuration exact_host topspeed_opts mult_args stale_state
      (by decide)).1 (by decide),
    (fatal_configuration exact_host unknown_mode_opts mult_args stale_state
      (by decide)).2 (by decide) (by decide) (by decide) (by decide) (by decide)⟩

/-! ## Zero check and backend dispatch -/

/-- The three outcomes of the sleep phase. -/
theorem sleep_phase_cases {F : Type} (h : Host F) (o : Options F) (a : Args)
    (s : State) (ev : List Event) :
    (timesisset s.nap = false → sleep_phase h o a s ev = ⟨s, ev, .returned⟩)
      ∧ (timesisset s.nap = true → backend_supported h a.accurate = true →
          sleep_phase h o a s ev
            = ⟨s, ev ++ [.sleep a.accurate (clamp_nap s.nap o.maxsleep)],
                .returned⟩)
      ∧ (timesisset s.nap = true → backend_supported h a.accurate = false →
          sleep_phase h o a s ev = ⟨s, ev, .errx⟩) := by
  unfold sleep_phase
  refine ⟨?_, ?_, ?_⟩
  · intro hz; simp [hz]
  · intro hz hb; simp [hz, hb]
  · intro hz hb; simp [hz, hb]

/-- In the three timed modes the strategy `switch` either traps on `bps = 0` or
hands over to the sleep phase with effects that contain no sleep. -/
theorem strategy_timed {F : Type} (h : Host F) (o : Options F) (a : Args)
    (s : State)
    (hmode : o.speed.mode = SPEED_MULTIPLIER ∨ o.speed.mode = SPEED_MBPSRATE
      ∨ o.speed.mode = SPEED_PACKETRATE)
    (htrap : (strategy h o a s).exit ≠ .div_by_zero) :
    ∃ (s1 : State) (ev : List Event), sleeps ev = []
      ∧ strategy h o a s = sleep_phase h o a s1 ev := by
  rcases hmode with hm | hm | hm
  · unfold strategy
    simp only [hm, if_true]
    split_ifs
    all_goals (refine ⟨_, _, ?_, rfl⟩; rfl)
  · have hm1 : ¬ (SPEED_MBPSRATE = SPEED_MULTIPLIER) := by decide
    unfold strategy at htrap ⊢
    simp only [hm, hm1, if_false, if_true] at htrap ⊢
    split_ifs at htrap ⊢
    all_goals first
      | (refine ⟨_, _, ?_, rfl⟩; rfl)
      | exact absurd rfl htrap
  · rw [strategy_packetrate h o a s hm]
    split_ifs
    all_goals (refine ⟨_, _, ?_, rfl⟩; rfl)

/-- In the three timed modes a call that passes the gate and is not the
skipped first call runs the strategy `switch`. -/
theorem do_sleep_timed_dispatch {F : Type} (h : Host F) (o : Options F)
    (a : Args) (s : State) (hsend : s.send = 0)
    (hmode : o.speed.mode = SPEED_MULTIPLIER ∨ o.speed.mode = SPEED_MBPSRATE
      ∨ o.speed.mode = SPEED_PACKETRATE)
    (hdisp : o.speed.mode = SPEED_PACKETRATE →
      o.speed.pps_multi = 0 ∨ s.first_time = false) :
    ∃ s1 : State, do_sleep h o a s = strategy h o a s1 := by
  have hm1 : ¬ (SPEED_MULTIPLIER = SPEED_PACKETRATE) := by decide
  have hm2 : ¬ (SPEED_MULTIPLIER = SPEED_TOPSPEED) := by decide
  have hm3 : ¬ (SPEED_MBPSRATE = SPEED_PACKETRATE) := by decide
  have hm4 : ¬ (SPEED_MBPSRATE = SPEED_TOPSPEED) := by decide
  rcases hmode with hm | hm | hm
  · refine ⟨s, ?_⟩
    unfold do_sleep
    simp only [hsend, hm, hm1, hm2, lt_irrefl, false_and, if_false]
  · refine ⟨s, ?_⟩
    unfold do_sleep
    simp only [hsend, hm, hm3, hm4, lt_irrefl, false_and, if_false]
  · obtain ⟨s1, _, _, _, heq⟩ :=
      do_sleep_packetrate_dispatch h o a s hm hsend (hdisp hm)
    exact ⟨s1, heq⟩

/-- The sleeps of effects followed by one sleep. -/
theorem sleeps_append_sleep (ev : List Event) (acc : Int) (d : Timespec) :
    sleeps (ev ++ [.sleep acc d]) = sleeps ev ++ [.sleep acc d] := by
  unfold sleeps
  simp [List.filter_append]

/-- C15: once the strategy dispatch is done, the outcome depends on the nap,
`maxsleep` and `accurate` alone. A zero nap returns normally with no sleep for
every `accurate`; a non-zero nap with a backend the build contains invokes that
backend exactly once with the clamped nap; a non-zero nap with any other
`accurate` value ends in `errx` without a sleep. This holds for the sleep phase
itself and for every call in a timed mode that reaches it. -/
theorem zero_check_and_dispatch {F : Type} (h : Host F) (o : Options F)
    (a : Args) (s : State) :
    (∀ ev : List Event,
        (timesisset s.nap = false → sleep_phase h o a s ev = ⟨s, ev, .returned⟩)
          ∧ (timesisset s.nap = true → backend_supported h a.accurate = true →
              sleep_phase h o a s ev
                = ⟨s, ev ++ [.sleep a.accurate (clamp_nap s.nap o.maxsleep)],
                    .returned⟩)
          ∧ (timesisset s.nap = true → backend_supported h a.accurate = false →
              sleep_phase h o a s ev = ⟨s, ev, .errx⟩))
      ∧ (s.send = 0 →
          (o.speed.mode = SPEED_MULTIPLIER ∨ o.speed.mode = SPEED_MBPSRATE
            ∨ o.speed.mode = SPEED_PACKETRATE) →
          (o.speed.mode = SPEED_PACKETRATE →
            o.speed.pps_multi = 0 ∨ s.first_time = false) →
          (do_sleep h o a s).exit ≠ .div_by_zero →
          (timesisset (do_sleep h o a s).st.nap = false →
              (do_sleep h o a s).exit = .returned
                ∧ sleeps (do_sleep h o a s).events = [])
            ∧ (timesisset (do_sleep h o a s).st.nap = true →
                backend_supported h a.accurate = true →
                (do_sleep h o a s).exit = .returned
                  ∧ sleeps (do_sleep h o a s).events
                      = [.sleep a.accurate
                          (clamp_nap (do_sleep h o a s).st.nap o.maxsleep)])
            ∧ (timesisset (do_sleep h o a s).st.nap = true →
                backend_supported h a.accurate = false →
                (do_sleep h o a s).exit = .errx
                  ∧ sleeps (do_sleep h o a s).events = [])) := by
  refine ⟨fun ev => sleep_phase_cases h o a s ev, ?_⟩
  intro hsend hmode hdisp htrap
  obtain ⟨s1, hcall⟩ := do_sleep_timed_dispatch h o a s hsend hmode hdisp
  rw [hcall] at htrap ⊢
  obtain ⟨s2, ev, hev, hstrat⟩ := strategy_timed h o a s1 hmode htrap
  rw [hstrat, sleep_phase_st]
  obtain ⟨c1, c2, c3⟩ := sleep_phase_cases h o a s2 ev
  refine ⟨?_, ?_, ?_⟩
  · intro hz
    rw [c1 hz]
    exact ⟨rfl, hev⟩
  · intro hz hb
    rw [c2 hz hb]
    refine ⟨rfl, ?_⟩
    show sleeps (ev ++ [.sleep a.accurate (clamp_nap s2.nap o.maxsleep)]) = _
    rw [sleeps_append_sleep, hev]
    rfl
  · intro hz hb
    rw [c3 hz hb]
    exact ⟨rfl, hev⟩

/-- Witness for C15: the 0.75 s gap at speed 2 is slept once as 0.375 s by
`nanosleep_sleep`; with the timer selector 77 the same call ends in `errx`; a
backward jump (nap 0) with the selector 77 returns normally. -/
theorem zero_check_and_dispatch_witness :
    ((do_sleep exact_host mult_opts mult_args (State.init 0)).exit = .returned
        ∧ sleeps (do_sleep exact_host mult_opts mult_args (State.init 0)).events
            = [.sleep mult_args.accurate
                (clamp_nap (do_sleep exact_host mult_opts mult_args
                  (State.init 0)).st.nap mult_opts.maxsleep)])
      ∧ ((do_sleep exact_host mult_opts bad_timer_args (State.init 0)).exit = .errx
        ∧ sleeps (do_sleep exact_host mult_opts bad_timer_args (State.init 0)).events
            = [])
      ∧ ((do_sleep exact_host mult_opts back_args stale_state).exit = .returned
        ∧ sleeps (do_sleep exact_host mult_opts back_args stale_state).events = [])
      ∧ do_sleep exact_host mult_opts mult_args (State.init 0)
          = ⟨{ State.init 0 with nap := ⟨0, 375000000⟩ },
             [.sleep ACCURATE_NANOSLEEP ⟨0, 375000000⟩], .returned⟩ :=
  ⟨((zero_check_and_dispatch exact_host mult_opts mult_args (State.init 0)).2
      (by decide) (Or.inl (by decide)) (fun hc => absurd hc (by decide))
      (by decide)).2.1 (by decide) (by decide),
    ((zero_check_and_dispatch exact_host mult_opts bad_timer_args (State.init 0)).2
      (by decide) (Or.inl (by decide)) (fun hc => absurd hc (by decide))
      (by decide)).2.2 (by decide) (by decide),
    ((zero_check_and_dispatch exact_host mult_opts back_args stale_state).2
      (by decide) (Or.inl (by decide)) (fun hc => absurd hc (by decide))
      (by decide)).1 (by decide),
    by decide⟩

/-! ## Accelerator invariant -/

/-- Outside Manual mode the strategy `switch` never touches `send`. -/
theorem strategy_send {F : Type} (h : Host F) (o : Options F) (a : Args)
    (s : State) (hmode : o.speed.mode ≠ SPEED_ONEATATIME) :
    (strategy h o a s).st.send = s.send := by
  unfold strategy
  dsimp only
  simp only [hmode, if_false]
  split_ifs
  all_goals first
    | (rw [sleep_phase_st])
    | rfl

/-- C16: for a call that returns, with `0 <= pps_multi` in the range of `int`,
the new `send` is: the old `send - 1` when the old `send > 0`; `pps_multi - 1`
when the old `send = 0` in ConstantPacketRate mode with `pps_multi > 0`;
`c - 1` for the operator count `c >= 1` when the old `send = 0` in Manual
mode; and 0 in every other case. No case wraps below zero. -/
theorem accelerator_invariant {F : Type} (h : Host F) (o : Options F) (a : Args)
    (s : State) (hpps0 : 0 ≤ o.speed.pps_multi)
    (hpps31 : o.speed.pps_multi < 2 ^ 31)
    (hret : (do_sleep h o a s).exit = .returned) :
    (s.send > 0 → (do_sleep h o a s).st.send = s.send - 1)
      ∧ (s.send = 0 → o.speed.mode = SPEED_PACKETRATE → o.speed.pps_multi > 0 →
          ((do_sleep h o a s).st.send : Int) = o.speed.pps_multi - 1)
      ∧ (s.send = 0 → o.speed.mode = SPEED_ONEATATIME →
          ∃ c : Nat, get_user_count h a.stdin = some c ∧ 1 ≤ c
            ∧ (do_sleep h o a s).st.send = c - 1)
      ∧ (s.send = 0 →
          ¬ (o.speed.mode = SPEED_PACKETRATE ∧ o.speed.pps_multi > 0) →
          o.speed.mode ≠ SPEED_ONEATATIME →
          (do_sleep h o a s).st.send = 0) := by
  refine ⟨?_, ?_, ?_, ?_⟩
  · intro hpos
    rw [do_sleep_gate h o a s hpos]
  · intro hsend hmode hpos
    have hm : ¬ (SPEED_PACKETRATE = SPEED_TOPSPEED) := by decide
    have hm2 : o.speed.mode ≠ SPEED_ONEATATIME := by rw [hmode]; decide
    have hp : o.speed.pps_multi ≠ 0 := by omega
    obtain ⟨n, hn⟩ : ∃ n : Nat, o.speed.pps_multi = (n : Int) :=
      ⟨o.speed.pps_multi.toNat, by omega⟩
    have harm : to_u32 (o.speed.pps_multi - 1) = n - 1 := by
      rw [hn]; exact to_u32_pred n (by omega) (by omega)
    have hval : ((n - 1 : Nat) : Int) = o.speed.pps_multi - 1 := by omega
    by_cases hf : s.first_time = true
    · have e : do_sleep h o a s
          = ⟨⟨s.nap, to_u32 (o.speed.pps_multi - 1), false, s.skip_length⟩,
              [], .returned⟩ := by
        unfold do_sleep
        simp [hsend, hp, hmode, hf]
      rw [e]
      show ((to_u32 (o.speed.pps_multi - 1) : Nat) : Int) = _
      rw [harm, hval]
    · have e : do_sleep h o a s
          = strategy h o a
              ⟨s.nap, to_u32 (o.speed.pps_multi - 1), s.first_time, s.skip_length⟩ := by
        unfold do_sleep
        simp [hsend, hp, hmode, hm, hf]
      rw [e, strategy_send h o a _ hm2]
      show ((to_u32 (o.speed.pps_multi - 1) : Nat) : Int) = _
      rw [harm, hval]
  · intro hsend hmode
    have e := do_sleep_manual h o a s hsend hmode
    rw [e] at hret ⊢
    cases hg : get_user_count h a.stdin with
    | none =>
      rw [hg] at hret
      cases hret
    | some c =>
      have hspec := get_user_count_line h
      have hc : 1 ≤ c ∧ c < 2 ^ 32 := by
        cases hin : a.stdin with
        | fcntl_failed => rw [hin] at hg; simp [get_user_count] at hg
        | poll_failed => rw [hin] at hg; simp [get_user_count] at hg
        | fgets_null => rw [hin] at hg; simp [get_user_count] at hg
        | line l =>
          rw [hin, hspec l] at hg
          have hv := Option.some.inj hg
          rw [← hv]
          split_ifs with hcond
          · exact ⟨by omega, Nat.mod_lt _ (by norm_num)⟩
          · exact ⟨le_refl 1, by norm_num⟩
      refine ⟨c, rfl, hc.1, ?_⟩
      show to_u32 ((c : Int) - 1) = c - 1
      exact to_u32_count_pred c hc.1 hc.2
  · intro hsend hnarm hman
    have hnarm2 : ¬ (o.speed.mode = SPEED_PACKETRATE ∧ o.speed.pps_multi ≠ 0) := by
      intro hc
      exact hnarm ⟨hc.1, by omega⟩
    by_cases htop : o.speed.mode = SPEED_TOPSPEED
    · exfalso
      have hm : ¬ (SPEED_TOPSPEED = SPEED_PACKETRATE) := by decide
      have e : do_sleep h o a s = ⟨s, [], .assert_failed⟩ := by
        unfold do_sleep
        simp only [hsend, htop, hm, lt_irrefl, false_and, if_false, if_true]
      rw [e] at hret
      cases hret
    · have e : do_sleep h o a s = strategy h o a s := by
        unfold do_sleep
        simp only [hsend, hnarm2, htop, lt_irrefl, if_false]
      rw [e, strategy_send h o a s hman, hsend]

/-- Witness for C16: at `pps_multi = 5` a pending burst of 3 drops to 2 and a
spent burst is re-armed to 4; an operator answer of `3` arms 2; a Multiplier
call leaves `send` at 0. -/
theorem accelerator_invariant_witness :
    (do_sleep exact_host pps_opts mult_args burst_state).st.send = 3 - 1
      ∧ ((do_sleep exact_host pps_opts mult_args second_call_state).st.send : Int)
          = 5 - 1
      ∧ (∃ c : Nat, get_user_count exact_host answer_3_args.stdin = some c ∧ 1 ≤ c
          ∧ (do_sleep exact_host manual_opts answer_3_args (State.init 0)).st.send
              = c - 1)
      ∧ (do_sleep exact_host mult_opts mult_args (State.init 0)).st.send = 0 :=
  ⟨(accelerator_invariant exact_host pps_opts mult_args burst_state (by decide)
      (by decide) (by decide)).1 (by decide),
    (accelerator_invariant exact_host pps_opts mult_args second_call_state
      (by decide) (by decide) (by decide)).2.1 (by decide) (by decide) (by decide),
    (accelerator_invariant exact_host manual_opts answer_3_args (State.init 0)
      (by decide) (by decide) (by decide)).2.2.1 (by decide) (by decide),
    (accelerator_invariant exact_host mult_opts mult_args (State.init 0)
      (by decide) (by decide) (by decide)).2.2.2 (by decide) (by decide)
      (by decide)⟩

/-! ## ConstantThroughput arithmetic -/

/-- The `SPEED_MBPSRATE` case of the strategy `switch` for a set `now_us` and a
non-zero `bps`, in terms of `next_tx_us` and `tx_us`. -/
theorem strategy_mbps {F : Type} (h : Host F) (o : Options F) (a : Args)
    (s : State) (hmode : o.speed.mode = SPEED_MBPSRATE) (hnow : a.now_us ≠ 0)
    (hbps : h.float_to_counter o.speed.speed % 2 ^ 64 ≠ 0) :
    strategy h o a s =
      (if next_tx_us a.bytes_sent a.len (h.float_to_counter o.speed.speed % 2 ^ 64)
          > tx_us a.now_us a.start_us then
        sleep_phase h o a
          ⟨NANOSEC_TO_TIMESPEC
              ((next_tx_us a.bytes_sent a.len
                  (h.float_to_counter o.speed.speed % 2 ^ 64)
                - tx_us a.now_us a.start_us) * 1000 % 2 ^ 64),
            s.send, s.first_time, s.skip_length⟩
          [.trace_entry ((a.bytes_sent + to_u64 a.len) % 2 ^ 64) a.now_us
            (tx_us a.now_us a.start_us)
            (next_tx_us a.bytes_sent a.len
              (h.float_to_counter o.speed.speed % 2 ^ 64))]
      else if tx_us a.now_us a.start_us
          > next_tx_us a.bytes_sent a.len
              (h.float_to_counter o.speed.speed % 2 ^ 64) then
        sleep_phase h o a
          ⟨s.nap, s.send, s.first_time,
            ((tx_us a.now_us a.start_us
                - next_tx_us a.bytes_sent a.len
                    (h.float_to_counter o.speed.speed % 2 ^ 64))
              * (h.float_to_counter o.speed.speed % 2 ^ 64) % 2 ^ 64) / 8000000⟩
          [.trace_entry ((a.bytes_sent + to_u64 a.len) % 2 ^ 64) a.now_us
            (tx_us a.now_us a.start_us)
            (next_tx_us a.bytes_sent a.len
              (h.float_to_counter o.speed.speed % 2 ^ 64))]
      else
        sleep_phase h o a s
          [.trace_entry ((a.bytes_sent + to_u64 a.len) % 2 ^ 64) a.now_us
            (tx_us a.now_us a.start_us)
            (next_tx_us a.bytes_sent a.len
              (h.float_to_counter o.speed.speed % 2 ^ 64))]) := by
  have hm1 : ¬ (SPEED_MBPSRATE = SPEED_MULTIPLIER) := by decide
  unfold strategy next_tx_us tx_us
  simp only [hmode, hm1, hnow, hbps, if_false, if_true, ne_eq, not_false_eq_true]

/-- A ConstantThroughput call that passes the gate runs the strategy `switch`
on the unchanged state. -/
theorem do_sleep_mbps {F : Type} (h : Host F) (o : Options F) (a : Args)
    (s : State) (hsend : s.send = 0) (hmode : o.speed.mode = SPEED_MBPSRATE) :
    do_sleep h o a s = strategy h o a s := by
  have hm3 : ¬ (SPEED_MBPSRATE = SPEED_PACKETRATE) := by decide
  have hm4 : ¬ (SPEED_MBPSRATE = SPEED_TOPSPEED) := by decide
  unfold do_sleep
  simp only [hsend, hmode, hm3, hm4, lt_irrefl, false_and, if_false]

/-- The conversion of a non-negative C integer to `u_int64_t`. -/
theorem to_u64_natCast (n : Nat) : to_u64 (n : Int) = n % 2 ^ 64 := by
  unfold to_u64
  omega

/-- The stepwise 64-bit reductions of lines 180-182 amount to one reduction of
the exact product. -/
theorem next_tx_us_eq (bytes_sent len bps : Nat) :
    next_tx_us bytes_sent (len : Int) bps
      = ((bytes_sent + len) * 8 * 1000000 % 2 ^ 64) / bps := by
  have e : ((bytes_sent + len % 2 ^ 64) % 2 ^ 64 * 8) % 2 ^ 64 * 1000000 % 2 ^ 64
      = (bytes_sent + len) * 8 * 1000000 % 2 ^ 64 := by
    omega
  unfold next_tx_us
  rw [to_u64_natCast, e]

/-- A wrapped product yields a strictly earlier send time. -/
theorem wrapped_div_lt (x bps : Nat) (hbps1 : 1 ≤ bps) (hbps64 : bps < 2 ^ 64)
    (hx : 2 ^ 64 ≤ x) : x % 2 ^ 64 / bps < x / bps := by
  have h1 : x % 2 ^ 64 ≤ x - 2 ^ 64 := by omega
  have h2 : x % 2 ^ 64 / bps ≤ (x - 2 ^ 64) / bps := Nat.div_le_div_right h1
  have h3 : (x - 2 ^ 64 + bps) / bps = (x - 2 ^ 64) / bps + 1 :=
    Nat.add_div_right _ (by omega)
  have h4 : (x - 2 ^ 64 + bps) / bps ≤ x / bps :=
    Nat.div_le_div_right (by omega)
  omega

/-- The effects handed to the sleep phase are kept. -/
theorem mem_sleep_phase_events {F : Type} (h : Host F) (o : Options F)
    (a : Args) (s : State) (ev : List Event) (e : Event) (he : e ∈ ev) :
    e ∈ (sleep_phase h o a s ev).events := by
  rcases sleep_phase_events h o a s ev with h1 | ⟨_, h1⟩
  · rw [h1]; exact he
  · rw [h1]; exact List.mem_append_left _ he

/-- C20: for every `bytes_sent`, `len >= 0` and `1 <= bps < 2^64`, the
`next_tx_us` that a ConstantThroughput call computes and reports in its trace
entry is `((bytes_sent + len) * 8 * 1000000 mod 2^64) / bps`; it equals the
exact `(bytes_sent + len) * 8000000 / bps` if and only if
`(bytes_sent + len) * 8000000 < 2^64`, and once that product reaches `2^64` it
is strictly smaller than the exact value. -/
theorem next_tx_us_range {F : Type} (h : Host F) (o : Options F) (a : Args)
    (s : State) (len bps : Nat)
    (hsend : s.send = 0) (hmode : o.speed.mode = SPEED_MBPSRATE)
    (hnow : a.now_us ≠ 0) (hlen : a.len = (len : Int))
    (hbps : h.float_to_counter o.speed.speed = bps) (hbps1 : 1 ≤ bps)
    (hbps64 : bps < 2 ^ 64) :
    (∃ bytes tx : Nat,
        Event.trace_entry bytes a.now_us tx (next_tx_us a.bytes_sent a.len bps)
          ∈ (do_sleep h o a s).events)
      ∧ next_tx_us a.bytes_sent a.len bps
          = ((a.bytes_sent + len) * 8 * 1000000 % 2 ^ 64) / bps
      ∧ (next_tx_us a.bytes_sent a.len bps = (a.bytes_sent + len) * 8000000 / bps
          ↔ (a.bytes_sent + len) * 8000000 < 2 ^ 64)
      ∧ (2 ^ 64 ≤ (a.bytes_sent + len) * 8000000 →
          next_tx_us a.bytes_sent a.len bps
            < (a.bytes_sent + len) * 8000000 / bps) := by
  have hb : h.float_to_counter o.speed.speed % 2 ^ 64 = bps := by
    rw [hbps]; exact Nat.mod_eq_of_lt hbps64
  have hb0 : h.float_to_counter o.speed.speed % 2 ^ 64 ≠ 0 := by
    rw [hb]; omega
  have hprod : (a.bytes_sent + len) * 8 * 1000000 = (a.bytes_sent + len) * 8000000 := by
    ring
  have hval : next_tx_us a.bytes_sent a.len bps
      = ((a.bytes_sent + len) * 8000000 % 2 ^ 64) / bps := by
    rw [hlen, next_tx_us_eq, hprod]
  refine ⟨?_, ?_, ?_, ?_⟩
  · refine ⟨(a.bytes_sent + to_u64 a.len) % 2 ^ 64, tx_us a.now_us a.start_us, ?_⟩
    rw [do_sleep_mbps h o a s hsend hmode, strategy_mbps h o a s hmode hnow hb0, hb]
    split_ifs
    all_goals (apply mem_sleep_phase_events; exact List.mem_singleton.mpr rfl)
  · rw [hval, hprod]
  · rw [hval]
    constructor
    · intro heq
      by_contra hge
      have hlt := wrapped_div_lt ((a.bytes_sent + len) * 8000000) bps hbps1
        hbps64 (by omega)
      omega
    · intro hlt
      rw [Nat.mod_eq_of_lt hlt]
  · intro hge
    rw [hval]
    exact wrapped_div_lt _ bps hbps1 hbps64 hge

/-- Witness for C20: after 2,305,843,009,213 bytes a 1000-byte packet at
8,000,000 bit/s gets the send time 999 microseconds instead of the exact
2,305,843,010,213 microseconds. -/
theorem next_tx_us_range_witness :
    (2 ^ 64 ≤ (huge_args.bytes_sent + 1000) * 8000000 →
        next_tx_us huge_args.bytes_sent huge_args.len 8000000
          < (huge_args.bytes_sent + 1000) * 8000000 / 8000000)
      ∧ next_tx_us huge_args.bytes_sent huge_args.len 8000000 = 999
      ∧ (huge_args.bytes_sent + 1000) * 8000000 / 8000000 = 2305843010213
      ∧ Event.trace_entry 2305843010213 7000000 2000000 999
          ∈ (do_sleep exact_host mbps_opts huge_args (State.init 0)).events :=
  ⟨(next_tx_us_range exact_host mbps_opts huge_args (State.init 0) 1000 8000000
      (by decide) (by decide) (by decide) (by decide) (by decide) (by decide)
      (by decide)).2.2.2,
    by decide, by decide, by decide⟩

/-! ## Multiplier formula, direction of the difference -/

/-- The nap of a Multiplier call that passes the gate with a set previous
timestamp that is not after the current one. -/
theorem multiplier_normal_nap {F : Type} (h : Host F) (o : Options F) (a : Args)
    (s : State) (hsend : s.send = 0) (hmode : o.speed.mode = SPEED_MULTIPLIER)
    (hlast : timerisset a.last = true) (hge : timercmp_lt a.time a.last = false) :
    (do_sleep h o a s).st.nap
      = h.timesdiv_float (TIMEVAL_TO_TIMESPEC (timersub a.time a.last))
          o.speed.speed := by
  have hm1 : ¬ (SPEED_MULTIPLIER = SPEED_PACKETRATE) := by decide
  have hm2 : ¬ (SPEED_MULTIPLIER = SPEED_TOPSPEED) := by decide
  unfold do_sleep strategy
  simp only [hsend, hmode, hm1, hm2, hlast, hge, lt_irrefl, false_and, if_false,
    if_true, Bool.false_eq_true, sleep_phase_st]

/-- The exact quotient as a count of nanoseconds. -/
theorem exact_timesdiv_nsecs (d : Timespec) (m : Frac) (hd : 0 ≤ d.nsecs)
    (hnum : 0 < m.num) (hden : 0 ≤ m.den) :
    (exact_timesdiv d m).nsecs = d.nsecs * m.den / m.num := by
  unfold exact_timesdiv
  rw [nanosec_to_timespec_nsecs]
  have hq : 0 ≤ d.nsecs * m.den / m.num :=
    Int.ediv_nonneg (mul_nonneg hd hden) (le_of_lt hnum)
  unfold Timespec.nsecs at hq ⊢
  exact Int.toNat_of_nonneg hq

/-- C18 (as amended): for canonical timestamps `t1` (previous, set) and `t2`
(current) with `t2 >= t1` and every speed multiplier `m`, the nap of a
Multiplier call is `(t2 - t1) / m`: `timesdiv_float` applied to a timespec that
holds exactly `t2 - t1`, which is not negative and differs from `t1 - t2` unless
both are 0. With exact arithmetic and `m = p / q > 0` the nap is
`(t2 - t1) * q / p` in whole nanoseconds. -/
theorem multiplier_nap_direction {F : Type} (h : Host F) (o : Options F)
    (a : Args) (s : State) (t1 t2 : Timeval)
    (hsend : s.send = 0) (hmode : o.speed.mode = SPEED_MULTIPLIER)
    (hprev : a.last = t1) (hcur : a.time = t2)
    (hset : timerisset t1 = true) (hge : timercmp_lt t2 t1 = false)
    (hc1 : t1.canonical) (hc2 : t2.canonical) :
    (do_sleep h o a s).st.nap
        = h.timesdiv_float (TIMEVAL_TO_TIMESPEC (timersub t2 t1)) o.speed.speed
      ∧ (TIMEVAL_TO_TIMESPEC (timersub t2 t1)).nsecs
          = (t2.usecs - t1.usecs) * 1000
      ∧ 0 ≤ t2.usecs - t1.usecs
      ∧ (t2.usecs ≠ t1.usecs →
          (TIMEVAL_TO_TIMESPEC (timersub t2 t1)).nsecs
            ≠ (t1.usecs - t2.usecs) * 1000)
      ∧ (∀ (o2 : Options Frac), o2.speed.mode = SPEED_MULTIPLIER →
          0 < o2.speed.speed.num → 0 ≤ o2.speed.speed.den →
          (do_sleep exact_host o2 a s).st.nap.nsecs
            = (t2.usecs - t1.usecs) * 1000 * o2.speed.speed.den
                / o2.speed.speed.num) := by
  have hlast : timerisset a.last = true := by rw [hprev]; exact hset
  have hge2 : timercmp_lt a.time a.last = false := by rw [hprev, hcur]; exact hge
  have hns : (TIMEVAL_TO_TIMESPEC (timersub t2 t1)).nsecs
      = (t2.usecs - t1.usecs) * 1000 := by
    have hsub := timersub_usecs t2 t1
    unfold TIMEVAL_TO_TIMESPEC Timespec.nsecs
    unfold Timeval.usecs at hsub ⊢
    simp only
    linarith
  have hpos : 0 ≤ t2.usecs - t1.usecs := by
    unfold timercmp_lt at hge
    unfold Timeval.canonical at hc1 hc2
    unfold Timeval.usecs
    by_cases hs : t2.tv_sec = t1.tv_sec
    · simp [hs] at hge; rw [hs]; omega
    · simp [hs] at hge; omega
  refine ⟨?_, hns, hpos, ?_, ?_⟩
  · rw [multiplier_normal_nap h o a s hsend hmode hlast hge2, hprev, hcur]
  · intro hne
    rw [hns]
    omega
  · intro o2 hmode2 hnum hden
    rw [multiplier_normal_nap exact_host o2 a s hsend hmode2 hlast hge2, hprev,
      hcur]
    show (exact_timesdiv (TIMEVAL_TO_TIMESPEC (timersub t2 t1)) o2.speed.speed).nsecs
      = _
    rw [exact_timesdiv_nsecs _ _ (by rw [hns]; omega) hnum hden, hns]

/-- Witness for C18: previous packet at 9.75 s, current at 10.5 s, speed 2:
the nap is `(10.5 - 9.75) / 2 = 0.375` s. -/
theorem multiplier_nap_direction_witness :
    (do_sleep exact_host mult_opts mult_args (State.init 0)).st.nap
        = exact_host.timesdiv_float
            (TIMEVAL_TO_TIMESPEC (timersub mult_args.time mult_args.last))
            mult_opts.speed.speed
      ∧ (do_sleep exact_host mult_opts mult_args (State.init 0)).st.nap.nsecs
          = (mult_args.time.usecs - mult_args.last.usecs) * 1000
              * mult_opts.speed.speed.den / mult_opts.speed.speed.num
      ∧ (mult_args.time.usecs - mult_args.last.usecs) * 1000
              * mult_opts.speed.speed.den / mult_opts.speed.speed.num
          = 375000000 :=
  have w := multiplier_nap_direction exact_host mult_opts mult_args (State.init 0)
    mult_args.last mult_args.time (by decide) (by decide) rfl rfl (by decide)
    (by decide) (by decide) (by decide)
  ⟨w.1, w.2.2.2.2 mult_opts (by decide) (by decide) (by decide), by decide⟩

/-- Counterexample for C18 as stated: with the previous packet `t1` at 9.75 s,
the current packet `t2` at 10.5 s and `m = 2`, the nap is 375,000,000 ns, while
`(t1 - t2) / m` is -375,000,000 ns; dividing the timespec of `t1 - t2` gives a
different nap as well. -/
theorem multiplier_nap_not_reversed :
    timercmp_lt mult_args.time mult_args.last = false
      ∧ (do_sleep exact_host mult_opts mult_args (State.init 0)).st.nap.nsecs
          = 375000000
      ∧ (mult_args.last.usecs - mult_args.time.usecs) * 1000 / 2 = -375000000
      ∧ (do_sleep exact_host mult_opts mult_args (State.init 0)).st.nap
          ≠ exact_host.timesdiv_float
              (TIMEVAL_TO_TIMESPEC (timersub mult_args.last mult_args.time))
              mult_opts.speed.speed := by
  decide

/-! ## `ioport_sleep` -/

/-- The spin loop performs one port write per count. -/
theorem spin_eq (usec : Nat) : ∀ writes : Nat, spin usec writes = writes + usec := by
  induction usec with
  | zero => intro writes; rfl
  | succ n ih =>
    intro writes
    show spin n (writes + 1) = writes + (n + 1)
    rw [ih]
    omega

/-- Each pass of the seconds loop performs `SEC_TO_MICROSEC(tv_sec)` port
writes (as a `u_int32_t`). -/
theorem seconds_loop_eq (tv_sec : Int) (remaining : Nat) :
    ∀ writes : Nat,
      seconds_loop tv_sec remaining writes
        = writes + remaining * to_u32 (SEC_TO_MICROSEC tv_sec) := by
  induction remaining with
  | zero => intro writes; simp [seconds_loop]
  | succ n ih =>
    intro writes
    show seconds_loop tv_sec n (spin (to_u32 (SEC_TO_MICROSEC tv_sec)) writes) = _
    rw [ih, spin_eq]
    ring

/-- The number of port writes of `ioport_sleep` in closed form. -/
theorem ioport_sleep_eq {F : Type} (h : Host F) (nap : Timespec)
    (hio : h.HAVE_IOPERM = true) :
    ioport_sleep h nap
      = some (nap.tv_sec.toNat * to_u32 (nap.tv_sec * 1000000)
          + to_u32 ((to_u32 (Int.tdiv nap.tv_nsec 1000) : Int) - 1)) := by
  unfold ioport_sleep TIMESPEC_TO_TIMEVAL
  simp only [hio, if_true, spin_eq, seconds_loop_eq, SEC_TO_MICROSEC, zero_add]

/-- C19 (evaluation of the code): `ioport_sleep` returns for every nap, but
its port writes exceed the whole microseconds of the nap: for 2.5 s it performs
`2 * 2000000 + 499999 = 4499999` writes against 2,500,000 microseconds, and for
500 ns it performs `2^32 - 1 = 4294967295` writes against 0 microseconds. -/
theorem ioport_sleep_overspins :
    (∀ nap : Timespec, ∃ writes : Nat, ioport_sleep exact_host nap = some writes)
      ∧ ioport_sleep exact_host ⟨2, 500000000⟩ = some 4499999
      ∧ (⟨2, 500000000⟩ : Timespec).whole_usecs = 2500000
      ∧ ioport_sleep exact_host ⟨0, 500⟩ = some 4294967295
      ∧ (⟨0, 500⟩ : Timespec).whole_usecs = 0 := by
  refine ⟨?_, ?_, ?_, ?_, ?_⟩
  · intro nap
    exact ⟨_, ioport_sleep_eq exact_host nap rfl⟩
  · rw [ioport_sleep_eq exact_host _ rfl]
    decide
  · decide
  · rw [ioport_sleep_eq exact_host _ rfl]
    decide
  · decide

end Tcpreplay
